import Mathlib

/-!
# mychmod: permission change-sets, conflict validation and per-file application

A shallow embedding of `src/mychmod.c`.

Modelling conventions.

* `mode_t` values are natural numbers.  The program only combines them with
  `|`, `&`, `^` and shifts a value of at most 7 left by 3 or 6, so no operation
  can leave the range of an unsigned 32-bit `mode_t`; where a complement `~x`
  is needed it is taken at 32 bits (`bnot32`).
* `stderr` output and the `stat`/`chmod` system calls are recorded, in program
  order, in a list of `Event`s.
* The file system is an oracle: for the file handled at loop index `filei` it
  answers the `stat` call and the `chmod` call.  A `stat` that fails leaves
  `statbuf` as it was.  `statbuf` is an uninitialised automatic variable, so its
  initial `st_mode` is a parameter of `change_permissions`.
* `getopt` (libc) is an oracle as well: the successive results it returns
  before `-1`, each with the `optarg` it left, and the arguments
  `argv[optind..argc)` that remain.  Any result character other than the six
  of the option string stands for what `getopt` returns on an unrecognised
  option or a missing value.
* Heap allocation in `add_to_file_list` is taken to succeed.
-/

namespace Mychmod

/-! ## Constants of the system headers -/

/-- Values of `enum { OTH, GRP, USR, NUM_SETS }`. -/
def OTH : Nat := 0
def GRP : Nat := 1
def USR : Nat := 2
def NUM_SETS : Nat := 3

/-- Permission bits of `<sys/stat.h>` (values fixed by POSIX). -/
def S_IRUSR : Nat := 0o400
def S_IWUSR : Nat := 0o200
def S_IXUSR : Nat := 0o100
def S_IRGRP : Nat := 0o040
def S_IWGRP : Nat := 0o020
def S_IXGRP : Nat := 0o010
def S_IROTH : Nat := 0o004
def S_IWOTH : Nat := 0o002
def S_IXOTH : Nat := 0o001

/-- Error numbers of `<errno.h>` (Linux values). -/
def EPERM : Nat := 1
def ENOENT : Nat := 2
def EACCES : Nat := 13
def EROFS : Nat := 30
def EOVERFLOW : Nat := 75

/-- Complement of a 32-bit `mode_t` value, C's `~x`. -/
def bnot32 (x : Nat) : Nat := (2 ^ 32 - 1) ^^^ (x % 2 ^ 32)

/-! ## Data model -/

/-- Requested permission changes: `struct permset`. -/
structure permset where
  adds : Nat
  subs : Nat
deriving DecidableEq, Repr

/-- List of files to be altered: `struct filelist`.  The array `filenames`
together with its `list_size` is a list; `list_capacity` is kept as a count. -/
structure filelist where
  list_capacity : Nat
  filenames : List String
deriving DecidableEq, Repr

/-- Field `list_size`: the number of entries of `filenames`. -/
def filelist.list_size (l : filelist) : Nat := l.filenames.length

/-- Observable actions of the program, in program order. -/
inductive Event where
  | err (msg : String)
  | stat (path : String)
  | chmod (path : String) (mode : Nat)
deriving DecidableEq, Repr

/-- Outcome of `stat(path, &statbuf)`: success with the `st_mode` written to
the buffer, or `-1` with `errno` set. -/
inductive StatResult where
  | ok (st_mode : Nat)
  | fail (errno : Nat)
deriving DecidableEq, Repr

/-- Outcome of `chmod(path, mode)`: success, or `-1` with `errno` set. -/
inductive ChmodResult where
  | ok
  | fail (errno : Nat)
deriving DecidableEq, Repr

/-- The operating system as seen by `change_permissions`: the answer to the
`stat` and to the `chmod` issued for the file at loop index `filei`, and the
text `strerror` gives for an error number. -/
structure Oracle where
  stat : Nat → String → StatResult
  chmod : Nat → String → Nat → ChmodResult
  strerror : Nat → String

/-! ## add_to_file_list -/

/-- Function `add_to_file_list` (lines 38-69): grows the capacity by 100 when the
list is full and appends the name; returns 0. -/
def add_to_file_list (list : filelist) (filename : String) : Nat × filelist :=
  let cap :=
    if list.list_size + 1 > list.list_capacity then list.list_capacity + 100
    else list.list_capacity
  (0, { list_capacity := cap, filenames := list.filenames ++ [filename] })

/-! ## add_change_to_set -/

/-- The character loop of `add_change_to_set` (lines 110-122): the accumulated
`modechange`, or the character at which the `default` case returned. -/
def add_change_to_set_loop : List Char → Nat → Except Char Nat
  | [], modechange => .ok modechange
  | c :: cs, modechange =>
    if c = 'r' then add_change_to_set_loop cs (modechange ||| 0x04)
    else if c = 'w' then add_change_to_set_loop cs (modechange ||| 0x02)
    else if c = 'x' then add_change_to_set_loop cs (modechange ||| 0x01)
    else .error c

/-- Result of `add_change_to_set`: return value, the new `*set`, and what was
printed. -/
structure SetResult where
  ret : Nat
  set : Nat
  log : List Event
deriving DecidableEq, Repr

/-- Function `add_change_to_set` (lines 104-135). -/
def add_change_to_set (set : Nat) (arg : String) (modeset : Nat) : SetResult :=
  match add_change_to_set_loop arg.data 0 with
  | .error c =>
    { ret := 1, set := set,
      log := [Event.err ("Error: Invalid permission option: " ++ String.singleton c ++ "\n")] }
  | .ok modechange =>
    let modechange :=
      if modeset = USR then modechange <<< 6
      else if modeset = GRP then modechange <<< 3
      else modechange
    { ret := 0, set := set ||| modechange, log := [] }

/-! ## parse_cmd_line -/

/-- Result of `parse_cmd_line`: return value, `*perms`, `*files`, and what was
printed. -/
structure ParseResult where
  ret : Nat
  perms : permset
  files : filelist
  log : List Event
deriving DecidableEq, Repr

/-- The `getopt` loop of `parse_cmd_line` (lines 159-185).  The first component
is `some r` when the function returned `r` from inside the loop and `none` when
`getopt` ran out of options. -/
def parse_switches (argv0 : String) :
    List (Char × String) → permset → Option Nat × permset × List Event
  | [], perms => (none, perms, [])
  | (c, optarg) :: more, perms =>
    if c = 'u' then
      let r := add_change_to_set perms.adds optarg USR
      if r.ret ≠ 0 then (some 1, { perms with adds := r.set }, r.log)
      else parse_switches argv0 more { perms with adds := r.set }
    else if c = 'g' then
      let r := add_change_to_set perms.adds optarg GRP
      if r.ret ≠ 0 then (some 1, { perms with adds := r.set }, r.log)
      else parse_switches argv0 more { perms with adds := r.set }
    else if c = 'o' then
      let r := add_change_to_set perms.adds optarg OTH
      if r.ret ≠ 0 then (some 1, { perms with adds := r.set }, r.log)
      else parse_switches argv0 more { perms with adds := r.set }
    else if c = 'U' then
      let r := add_change_to_set perms.subs optarg USR
      if r.ret ≠ 0 then (some 1, { perms with subs := r.set }, r.log)
      else parse_switches argv0 more { perms with subs := r.set }
    else if c = 'G' then
      let r := add_change_to_set perms.subs optarg GRP
      if r.ret ≠ 0 then (some 1, { perms with subs := r.set }, r.log)
      else parse_switches argv0 more { perms with subs := r.set }
    else if c = 'O' then
      let r := add_change_to_set perms.subs optarg OTH
      if r.ret ≠ 0 then (some 1, { perms with subs := r.set }, r.log)
      else parse_switches argv0 more { perms with subs := r.set }
    else
      (some 1, perms, [Event.err ("Error: Invalid Argument: " ++ argv0 ++ "\n")])

/-- The loop over the remaining arguments (lines 188-195): every one is added
to the file list. -/
def add_filenames : List String → filelist → filelist
  | [], files => files
  | name :: more, files => add_filenames more (add_to_file_list files name).2

/-- The checks that end `parse_cmd_line` (lines 197-229): the three conflict
tests in the order USER, GROUP, OTHER, then the test for an empty file list. -/
def check_conflicts (perms : permset) (files : filelist) : Nat × List Event :=
  if ((perms.adds &&& S_IRUSR) != 0 && (perms.subs &&& S_IRUSR) != 0) ||
     ((perms.adds &&& S_IWUSR) != 0 && (perms.subs &&& S_IWUSR) != 0) ||
     ((perms.adds &&& S_IXUSR) != 0 && (perms.subs &&& S_IXUSR) != 0) then
    (3, [Event.err "Error: Conflicting USER permission options\n"])
  else if (((perms.adds &&& S_IRGRP) &&& (perms.subs &&& S_IRGRP)) != 0) ||
     (((perms.adds &&& S_IWGRP) &&& (perms.subs &&& S_IWGRP)) != 0) ||
     (((perms.adds &&& S_IXGRP) &&& (perms.subs &&& S_IXGRP)) != 0) then
    (3, [Event.err "Error: Conflicting GROUP permission options\n"])
  else if (((perms.adds &&& S_IROTH) &&& (perms.subs &&& S_IROTH)) != 0) ||
     (((perms.adds &&& S_IWOTH) &&& (perms.subs &&& S_IWOTH)) != 0) ||
     (((perms.adds &&& S_IXOTH) &&& (perms.subs &&& S_IXOTH)) != 0) then
    (3, [Event.err "Error: Conflicting OTHER permission options\n"])
  else if files.list_size = 0 then
    (1, [Event.err "Error: No files given\n"])
  else
    (0, [])

/-- Function `parse_cmd_line` (lines 146-230).  `opts` are the results of the
successive `getopt` calls, `rest` the arguments from `optind` on. -/
def parse_cmd_line (argc : Nat) (argv0 : String) (opts : List (Char × String))
    (rest : List String) (perms : permset) (files : filelist) : ParseResult :=
  if argc < 4 then
    { ret := 1, perms := perms, files := files,
      log := [Event.err "Error: Insufficient number of arguments\n"] }
  else
    match parse_switches argv0 opts perms with
    | (some r, perms1, log1) => { ret := r, perms := perms1, files := files, log := log1 }
    | (none, perms1, log1) =>
      let files1 := add_filenames rest files
      let chk := check_conflicts perms1 files1
      { ret := chk.1, perms := perms1, files := files1, log := log1 ++ chk.2 }

/-! ## change_permissions -/

/-- The new mode value (lines 268-272): additions first, then the bits marked
for removal that ended up set are flipped off. -/
def new_mode (st_mode : Nat) (perms : permset) : Nat :=
  let newmode := st_mode
  let newmode := newmode ||| perms.adds
  let removemodes := newmode &&& perms.subs
  let newmode := newmode ^^^ removemodes
  newmode

/-- Local state of `change_permissions` between iterations: `ret`, the
`st_mode` held in `statbuf`, and the actions performed so far. -/
structure ApplyState where
  ret : Nat
  st_mode : Nat
  log : List Event
deriving DecidableEq, Repr

/-- Lines 268-293 of the loop body: compute the new mode from `statbuf` and
apply it with `chmod`. -/
def apply_new_mode (o : Oracle) (perms : permset) (filei : Nat) (path : String)
    (s : ApplyState) : ApplyState :=
  let newmode := new_mode s.st_mode perms
  let s := { s with log := s.log ++ [Event.chmod path newmode] }
  match o.chmod filei path newmode with
  | .ok => s
  | .fail errno =>
    if errno = EPERM then
      { s with ret := 2,
               log := s.log ++ [Event.err ("Error: Insufficient privileges to change " ++ path ++ "\n")] }
    else if errno = ENOENT then
      { s with ret := 4,
               log := s.log ++ [Event.err ("Error: " ++ path ++ " does not exist\n")] }
    else
      { s with log := s.log ++ [Event.err ("Error: Unexpected error while trying to change "
                  ++ path ++ " - " ++ o.strerror errno ++ "\n")] }

/-- One iteration of the loop of `change_permissions` (lines 247-293).  In the
`EACCES` and `ENOENT` cases of a failed `stat` the `continue` skips the rest of
the body; the `default` case only prints and falls out of the `switch`, so the
body goes on with `statbuf` as it was. -/
def process_file (o : Oracle) (perms : permset) (filei : Nat) (path : String)
    (s : ApplyState) : ApplyState :=
  let s := { s with log := s.log ++ [Event.stat path] }
  match o.stat filei path with
  | .ok m => apply_new_mode o perms filei path { s with st_mode := m }
  | .fail errno =>
    if errno = EACCES then
      { s with ret := 2,
               log := s.log ++ [Event.err ("Error: Access denied to " ++ path ++ "\n")] }
    else if errno = ENOENT then
      { s with ret := 4,
               log := s.log ++ [Event.err ("Error: " ++ path ++ " does not exist\n")] }
    else
      apply_new_mode o perms filei path
        { s with log := s.log ++ [Event.err ("Error: Unexpected error while trying to access "
                    ++ path ++ " - " ++ o.strerror errno ++ "\n")] }

/-- The `for` loop of `change_permissions` from index `filei` on, over the
names not yet visited. -/
def change_permissions_loop (o : Oracle) (perms : permset) :
    List String → Nat → ApplyState → ApplyState
  | [], _, s => s
  | path :: more, filei, s =>
    change_permissions_loop o perms more (filei + 1) (process_file o perms filei path s)

/-- Function `change_permissions` (lines 239-297).  `st_mode0` is the content of
the uninitialised `statbuf.st_mode`.  The result holds the return value `ret`
and the actions performed. -/
def change_permissions (o : Oracle) (files : filelist) (perms : permset)
    (st_mode0 : Nat) : ApplyState :=
  change_permissions_loop o perms files.filenames 0 { ret := 0, st_mode := st_mode0, log := [] }

/-! ## main -/

/-- The usage line printed by `main` on a parse failure. -/
def usage : String :=
  "Usage: mychmod [-u rwx] [-g rwx] [-o rwx] [-U rwx] [-G rwx] [-O rwx] <filename> [<filename>...]\n"

/-- Function `main` (lines 309-333): the return value and everything done. -/
def main (argc : Nat) (argv0 : String) (opts : List (Char × String)) (rest : List String)
    (o : Oracle) (st_mode0 : Nat) : Nat × List Event :=
  let perms : permset := { adds := 0, subs := 0 }
  let files : filelist := { list_capacity := 0, filenames := [] }
  let r := parse_cmd_line argc argv0 opts rest perms files
  if r.ret ≠ 0 then
    (r.ret, r.log ++ [Event.err usage])
  else
    let c := change_permissions o r.files r.perms st_mode0
    (c.ret, r.log ++ c.log)

/-! ## What the specification prescribes -/

/-- The 3-bit value the specification gives a letter string: `r` counts 4, `w`
counts 2 and `x` counts 1 when the letter occurs in it, OR-combined. -/
def spec_letter_bits (letters : List Char) : Nat :=
  (if 'r' ∈ letters then 4 else 0) ||| (if 'w' ∈ letters then 2 else 0)
    ||| (if 'x' ∈ letters then 1 else 0)

/-- The fixed offset of a subject class in a mode value: USER at bit 6, GROUP
at bit 3, OTHER at bit 0. -/
def spec_class_shift (modeset : Nat) : Nat :=
  if modeset = USR then 6 else if modeset = GRP then 3 else 0

/-- The bits one flag occurrence asks to add: `-u`, `-g`, `-o` with a letter
string; nothing for any other flag. -/
def spec_add_request (f : Char × String) : Nat :=
  if f.1 = 'u' then spec_letter_bits f.2.data <<< 6
  else if f.1 = 'g' then spec_letter_bits f.2.data <<< 3
  else if f.1 = 'o' then spec_letter_bits f.2.data <<< 0
  else 0

/-- The bits one flag occurrence asks to remove: `-U`, `-G`, `-O` with a letter
string; nothing for any other flag. -/
def spec_sub_request (f : Char × String) : Nat :=
  if f.1 = 'U' then spec_letter_bits f.2.data <<< 6
  else if f.1 = 'G' then spec_letter_bits f.2.data <<< 3
  else if f.1 = 'O' then spec_letter_bits f.2.data <<< 0
  else 0

/-- All bits a sequence of flags asks to add. -/
def spec_requested_adds : List (Char × String) → Nat
  | [] => 0
  | f :: more => spec_add_request f ||| spec_requested_adds more

/-- All bits a sequence of flags asks to remove. -/
def spec_requested_subs : List (Char × String) → Nat
  | [] => 0
  | f :: more => spec_sub_request f ||| spec_requested_subs more

/-- A flag the option string `u:g:o:U:G:O:` knows. -/
def recognised (f : Char × String) : Prop :=
  f.1 = 'u' ∨ f.1 = 'g' ∨ f.1 = 'o' ∨ f.1 = 'U' ∨ f.1 = 'G' ∨ f.1 = 'O'

instance (f : Char × String) : Decidable (recognised f) := by
  unfold recognised
  infer_instance

/-- A flag value made of the letters `r`, `w`, `x` only. -/
def valid_letters (arg : String) : Prop :=
  ∀ c ∈ arg.data, c = 'r' ∨ c = 'w' ∨ c = 'x'

instance (arg : String) : Decidable (valid_letters arg) := by
  unfold valid_letters
  infer_instance

/-- The validator as the specification words it: for the classes in the order
USER, GROUP, OTHER, `adds & subs` restricted to the 3-bit field of the class is
a conflict when nonzero; after that an empty file list is an error. -/
def spec_validate (perms : permset) (nfiles : Nat) : Nat × List Event :=
  if perms.adds &&& perms.subs &&& 0o700 ≠ 0 then
    (3, [Event.err "Error: Conflicting USER permission options\n"])
  else if perms.adds &&& perms.subs &&& 0o070 ≠ 0 then
    (3, [Event.err "Error: Conflicting GROUP permission options\n"])
  else if perms.adds &&& perms.subs &&& 0o007 ≠ 0 then
    (3, [Event.err "Error: Conflicting OTHER permission options\n"])
  else if nfiles = 0 then
    (1, [Event.err "Error: No files given\n"])
  else
    (0, [])

/-- What the specification expects `chmod` to receive for the file at index
`ip.1` with path `ip.2`: nothing when its `stat` fails, and `(m | adds) & ~subs`
when its `stat` gives mode `m`. -/
def spec_chmod (o : Oracle) (perms : permset) (ip : Nat × String) : Option (String × Nat) :=
  match o.stat ip.1 ip.2 with
  | StatResult.ok m => some (ip.2, (m ||| perms.adds) &&& bnot32 perms.subs)
  | StatResult.fail _ => none

/-- The diagnostic the specification expects for the file at index `ip.1` with
path `ip.2` when every failure is a classified one: access denied or not found
for a failed `stat`, insufficient privileges or not found for a failed `chmod`,
none when both succeed. -/
def spec_diagnostic (o : Oracle) (perms : permset) (ip : Nat × String) : Option String :=
  match o.stat ip.1 ip.2 with
  | StatResult.fail errno =>
    if errno = EACCES then some ("Error: Access denied to " ++ ip.2 ++ "\n")
    else some ("Error: " ++ ip.2 ++ " does not exist\n")
  | StatResult.ok m =>
    match o.chmod ip.1 ip.2 ((m ||| perms.adds) &&& bnot32 perms.subs) with
    | ChmodResult.ok => none
    | ChmodResult.fail errno =>
      if errno = EPERM then some ("Error: Insufficient privileges to change " ++ ip.2 ++ "\n")
      else some ("Error: " ++ ip.2 ++ " does not exist\n")

/-- The code a `chmod` outcome is classified as: 2 for `EPERM`, 4 for `ENOENT`,
none for success or any other error. -/
def spec_chmod_code (r : ChmodResult) : Option Nat :=
  match r with
  | ChmodResult.ok => none
  | ChmodResult.fail errno =>
    if errno = EPERM then some 2 else if errno = ENOENT then some 4 else none

/-- The classified failure of the file at index `ip.1` with path `ip.2`, if it
has one: 2 for `stat` failing with `EACCES` or `chmod` with `EPERM`, 4 for
`stat` or `chmod` failing with `ENOENT`.  `st_mode` is what `statbuf` holds when
the file is reached; it matters only for the `chmod` issued after a `stat`
that failed with another error. -/
def spec_file_code (o : Oracle) (perms : permset) (ip : Nat × String) (st_mode : Nat) :
    Option Nat :=
  match o.stat ip.1 ip.2 with
  | StatResult.ok m => spec_chmod_code (o.chmod ip.1 ip.2 (new_mode m perms))
  | StatResult.fail errno =>
    if errno = EACCES then some 2
    else if errno = ENOENT then some 4
    else spec_chmod_code (o.chmod ip.1 ip.2 (new_mode st_mode perms))

/-- What `statbuf.st_mode` holds after the `stat` of the file at index `ip.1`:
the mode read, or the previous content when the call failed. -/
def spec_statbuf (o : Oracle) (ip : Nat × String) (st_mode : Nat) : Nat :=
  match o.stat ip.1 ip.2 with
  | StatResult.ok m => m
  | StatResult.fail _ => st_mode

/-- The classified failures of the files of a list, in iteration order, the
first file having index `k` and being reached with `st_mode` in `statbuf`. -/
def spec_codes (o : Oracle) (perms : permset) : List String → Nat → Nat → List (Option Nat)
  | [], _, _ => []
  | path :: more, k, st_mode =>
    spec_file_code o perms (k, path) st_mode
      :: spec_codes o perms more (k + 1) (spec_statbuf o (k, path) st_mode)

/-- The code of the last classified failure of a run, 0 when there is none. -/
def spec_last_code (codes : List (Option Nat)) : Nat :=
  ((codes.filterMap id).getLast?).getD 0

/-- The first character of a letter string that is none of `r`, `w`, `x`. -/
def spec_first_invalid (letters : List Char) : Option Char :=
  letters.find? fun c => !(c == 'r' || c == 'w' || c == 'x')

/-! ## Projections of the action log -/

/-- The paths given to `stat`, in call order. -/
def stat_calls (log : List Event) : List String :=
  log.filterMap fun e => match e with
    | Event.stat p => some p
    | _ => none

/-- The `(path, mode)` pairs given to `chmod`, in call order. -/
def chmod_calls (log : List Event) : List (String × Nat) :=
  log.filterMap fun e => match e with
    | Event.chmod p m => some (p, m)
    | _ => none

/-- The lines written to `stderr`, in order. -/
def diagnostics (log : List Event) : List String :=
  log.filterMap fun e => match e with
    | Event.err msg => some msg
    | _ => none

/-! ## Sample environments -/

/-- A file system with three kinds of path: `missing` does not exist, `denied`
cannot be accessed, every other path is a regular file of mode 0644 that can be
changed. -/
def sample_oracle : Oracle where
  stat := fun _ path =>
    if path = "missing" then StatResult.fail ENOENT
    else if path = "denied" then StatResult.fail EACCES
    else StatResult.ok 0o100644
  chmod := fun _ _ _ => ChmodResult.ok
  strerror := fun _ => "Unknown error"

/-- A file system mounted read-only: every path is a regular file of mode 0644
and every `chmod` fails with `EROFS`. -/
def readonly_oracle : Oracle where
  stat := fun _ _ => StatResult.ok 0o100644
  chmod := fun _ _ _ => ChmodResult.fail EROFS
  strerror := fun _ => "Read-only file system"

/-- A file system holding two ordinary files, `a` of mode 0644 and `b` of mode
0600, in which the `stat` of every other path fails with `EOVERFLOW` (a file
too large for the `stat` structure of the build) while every `chmod`
succeeds. -/
def overflow_oracle : Oracle where
  stat := fun _ path =>
    if path = "a" then StatResult.ok 0o100644
    else if path = "b" then StatResult.ok 0o100600
    else StatResult.fail EOVERFLOW
  chmod := fun _ _ _ => ChmodResult.ok
  strerror := fun _ => "Value too large for defined data type"

/-- A file system in which every path is a regular file of mode 0640 that can
be changed. -/
def scenario_oracle : Oracle where
  stat := fun _ _ => StatResult.ok 0o100640
  chmod := fun _ _ _ => ChmodResult.ok
  strerror := fun _ => "Unknown error"

/-- A file system in which every path is a regular file of mode 0644 whose
`chmod` fails with `EACCES` (search permission on the path prefix is denied by
the time of the call). -/
def chmod_eacces_oracle : Oracle where
  stat := fun _ _ => StatResult.ok 0o100644
  chmod := fun _ _ _ => ChmodResult.fail EACCES
  strerror := fun _ => "Permission denied"

/-- A file system in which every path is a regular file of mode 0644 owned by
someone else: every `chmod` fails with `EPERM`. -/
def notowner_oracle : Oracle where
  stat := fun _ _ => StatResult.ok 0o100644
  chmod := fun _ _ _ => ChmodResult.fail EPERM
  strerror := fun _ => "Operation not permitted"

/-! ## Bit-level facts -/

theorem testBit_new_mode (m : Nat) (perms : permset) (i : Nat) :
    (new_mode m perms).testBit i
      = ((m.testBit i || perms.adds.testBit i) && !perms.subs.testBit i) := by
  simp only [new_mode, Nat.testBit_xor, Nat.testBit_and, Nat.testBit_or]
  cases m.testBit i <;> cases perms.adds.testBit i <;> cases perms.subs.testBit i <;> rfl

theorem testBit_bnot32 (x i : Nat) :
    (bnot32 x).testBit i = (decide (i < 32) && !x.testBit i) := by
  simp only [bnot32, Nat.testBit_xor, Nat.testBit_two_pow_sub_one, Nat.testBit_mod_two_pow]
  by_cases h : i < 32 <;> simp [h]

theorem testBit_of_lt_two_pow {x n i : Nat} (hx : x < 2 ^ n) (hi : n ≤ i) :
    x.testBit i = false := by
  apply Nat.testBit_lt_two_pow
  exact lt_of_lt_of_le hx (Nat.pow_le_pow_right (by decide) hi)

theorem new_mode_eq_and_bnot32 (m : Nat) (perms : permset) (hm : m < 2 ^ 32)
    (ha : perms.adds < 2 ^ 32) :
    new_mode m perms = (m ||| perms.adds) &&& bnot32 perms.subs := by
  apply Nat.eq_of_testBit_eq
  intro i
  rw [testBit_new_mode, Nat.testBit_and, Nat.testBit_or, testBit_bnot32]
  by_cases h : i < 32
  · simp [h]
  · have h1 := testBit_of_lt_two_pow hm (Nat.le_of_not_lt h)
    have h2 := testBit_of_lt_two_pow ha (Nat.le_of_not_lt h)
    simp [h, h1, h2]

/-! ## Letters and conflict checks -/

theorem letter_bits_cons_r (cs : List Char) : spec_letter_bits ('r' :: cs) = 4 ||| spec_letter_bits cs := by
  unfold spec_letter_bits
  by_cases hr : 'r' ∈ cs <;> by_cases hw : 'w' ∈ cs <;> by_cases hx : 'x' ∈ cs <;>
    simp [hr, hw, hx]

theorem letter_bits_cons_w (cs : List Char) : spec_letter_bits ('w' :: cs) = 2 ||| spec_letter_bits cs := by
  unfold spec_letter_bits
  by_cases hr : 'r' ∈ cs <;> by_cases hw : 'w' ∈ cs <;> by_cases hx : 'x' ∈ cs <;>
    simp [hr, hw, hx]

theorem letter_bits_cons_x (cs : List Char) : spec_letter_bits ('x' :: cs) = 1 ||| spec_letter_bits cs := by
  unfold spec_letter_bits
  by_cases hr : 'r' ∈ cs <;> by_cases hw : 'w' ∈ cs <;> by_cases hx : 'x' ∈ cs <;>
    simp [hr, hw, hx]

theorem add_change_to_set_loop_r (cs : List Char) (acc : Nat) :
    add_change_to_set_loop ('r' :: cs) acc = add_change_to_set_loop cs (acc ||| 0x04) := by
  simp [add_change_to_set_loop]

theorem add_change_to_set_loop_w (cs : List Char) (acc : Nat) :
    add_change_to_set_loop ('w' :: cs) acc = add_change_to_set_loop cs (acc ||| 0x02) := by
  simp [add_change_to_set_loop]

theorem add_change_to_set_loop_x (cs : List Char) (acc : Nat) :
    add_change_to_set_loop ('x' :: cs) acc = add_change_to_set_loop cs (acc ||| 0x01) := by
  simp [add_change_to_set_loop]

theorem add_change_to_set_loop_valid (l : List Char) :
    ∀ acc : Nat, (∀ c ∈ l, c = 'r' ∨ c = 'w' ∨ c = 'x') →
      add_change_to_set_loop l acc = Except.ok (acc ||| spec_letter_bits l) := by
  induction l with
  | nil => intro acc _; simp [add_change_to_set_loop, spec_letter_bits]
  | cons c cs ih =>
    intro acc h
    have hcs : ∀ d ∈ cs, d = 'r' ∨ d = 'w' ∨ d = 'x' := fun d hd => h d (List.mem_cons_of_mem _ hd)
    rcases h c (List.mem_cons_self _ _) with rfl | rfl | rfl
    · rw [add_change_to_set_loop_r, ih _ hcs, letter_bits_cons_r, Nat.or_assoc]
    · rw [add_change_to_set_loop_w, ih _ hcs, letter_bits_cons_w, Nat.or_assoc]
    · rw [add_change_to_set_loop_x, ih _ hcs, letter_bits_cons_x, Nat.or_assoc]

theorem letter_bits_lt (l : List Char) : spec_letter_bits l < 8 := by
  unfold spec_letter_bits
  split_ifs <;> decide

theorem and_two_pow_bne_zero (x k : Nat) : ((x &&& 2 ^ k) != 0) = x.testBit k := by
  rw [Nat.and_two_pow]
  cases x.testBit k <;> simp

theorem and_and_two_pow (a s k : Nat) : (a &&& 2 ^ k) &&& (s &&& 2 ^ k) = (a &&& s) &&& 2 ^ k := by
  apply Nat.eq_of_testBit_eq
  intro i
  simp only [Nat.testBit_and]
  cases a.testBit i <;> cases s.testBit i <;> cases (2 ^ k).testBit i <;> rfl

theorem lor_eq_zero_iff (a b : Nat) : a ||| b = 0 ↔ a = 0 ∧ b = 0 := by
  constructor
  · intro h
    have hb : ∀ i, (a.testBit i || b.testBit i) = false := by
      intro i
      rw [← Nat.testBit_or, h, Nat.zero_testBit]
    constructor
    · apply Nat.zero_of_testBit_eq_false
      intro i
      have := hb i
      simp only [Bool.or_eq_false_iff] at this
      exact this.1
    · apply Nat.zero_of_testBit_eq_false
      intro i
      have := hb i
      simp only [Bool.or_eq_false_iff] at this
      exact this.2
  · rintro ⟨rfl, rfl⟩
    rfl

theorem and_mask3_ne_zero (x k : Nat) :
    x &&& (2 ^ (k + 2) ||| 2 ^ (k + 1) ||| 2 ^ k) ≠ 0
      ↔ (x.testBit (k + 2) || x.testBit (k + 1) || x.testBit k) = true := by
  rw [Nat.and_or_distrib_left, Nat.and_or_distrib_left, Ne, lor_eq_zero_iff, lor_eq_zero_iff,
    ← and_two_pow_bne_zero, ← and_two_pow_bne_zero, ← and_two_pow_bne_zero]
  simp only [bne_iff_ne, ne_eq, Bool.or_eq_true, decide_eq_true_eq]
  tauto

theorem user_check_iff (a s : Nat) :
    ((((a &&& S_IRUSR) != 0 && (s &&& S_IRUSR) != 0) ||
      ((a &&& S_IWUSR) != 0 && (s &&& S_IWUSR) != 0) ||
      ((a &&& S_IXUSR) != 0 && (s &&& S_IXUSR) != 0)) = true)
      ↔ a &&& s &&& 0o700 ≠ 0 := by
  have h8 : S_IRUSR = 2 ^ 8 := rfl
  have h7 : S_IWUSR = 2 ^ 7 := rfl
  have h6 : S_IXUSR = 2 ^ 6 := rfl
  have hm : (0o700 : Nat) = 2 ^ (6 + 2) ||| 2 ^ (6 + 1) ||| 2 ^ 6 := by decide
  rw [hm, and_mask3_ne_zero, h8, h7, h6]
  simp only [and_two_pow_bne_zero, Nat.testBit_and]

theorem group_check_iff (a s : Nat) :
    (((((a &&& S_IRGRP) &&& (s &&& S_IRGRP)) != 0) ||
      (((a &&& S_IWGRP) &&& (s &&& S_IWGRP)) != 0) ||
      (((a &&& S_IXGRP) &&& (s &&& S_IXGRP)) != 0)) = true)
      ↔ a &&& s &&& 0o070 ≠ 0 := by
  have h8 : S_IRGRP = 2 ^ 5 := rfl
  have h7 : S_IWGRP = 2 ^ 4 := rfl
  have h6 : S_IXGRP = 2 ^ 3 := rfl
  have hm : (0o070 : Nat) = 2 ^ (3 + 2) ||| 2 ^ (3 + 1) ||| 2 ^ 3 := by decide
  rw [hm, and_mask3_ne_zero, h8, h7, h6]
  simp only [and_and_two_pow, and_two_pow_bne_zero, Nat.testBit_and]

theorem other_check_iff (a s : Nat) :
    (((((a &&& S_IROTH) &&& (s &&& S_IROTH)) != 0) ||
      (((a &&& S_IWOTH) &&& (s &&& S_IWOTH)) != 0) ||
      (((a &&& S_IXOTH) &&& (s &&& S_IXOTH)) != 0)) = true)
      ↔ a &&& s &&& 0o007 ≠ 0 := by
  have h8 : S_IROTH = 2 ^ 2 := rfl
  have h7 : S_IWOTH = 2 ^ 1 := rfl
  have h6 : S_IXOTH = 2 ^ 0 := rfl
  have hm : (0o007 : Nat) = 2 ^ (0 + 2) ||| 2 ^ (0 + 1) ||| 2 ^ 0 := by decide
  rw [hm, and_mask3_ne_zero, h8, h7, h6]
  simp only [and_and_two_pow, and_two_pow_bne_zero, Nat.testBit_and]

theorem check_conflicts_eq_spec (perms : permset) (files : filelist) :
    check_conflicts perms files = spec_validate perms files.list_size := by
  unfold check_conflicts spec_validate
  simp only [user_check_iff, group_check_iff, other_check_iff]

/-! ## The log of the file loop -/

theorem apply_new_mode_log (o : Oracle) (perms : permset) (filei : Nat) (path : String)
    (s : ApplyState) :
    ∃ tail, (apply_new_mode o perms filei path s).log
      = s.log ++ Event.chmod path (new_mode s.st_mode perms) :: tail
      ∧ ∀ e ∈ tail, ∃ msg, e = Event.err msg := by
  simp only [apply_new_mode]
  split
  · exact ⟨[], by simp⟩
  · split_ifs
    · exact ⟨[_], List.append_assoc _ _ _, by simp⟩
    · exact ⟨[_], List.append_assoc _ _ _, by simp⟩
    · exact ⟨[_], List.append_assoc _ _ _, by simp⟩

theorem process_file_log_ok (o : Oracle) (perms : permset) (filei : Nat) (path : String)
    (s : ApplyState) (m : Nat) (hstat : o.stat filei path = StatResult.ok m) :
    ∃ tail, (process_file o perms filei path s).log
      = s.log ++ Event.stat path :: Event.chmod path (new_mode m perms) :: tail
      ∧ ∀ e ∈ tail, ∃ msg, e = Event.err msg := by
  simp only [process_file, hstat]
  obtain ⟨tail, h, ht⟩ := apply_new_mode_log o perms filei path
    { ret := s.ret, st_mode := m, log := s.log ++ [Event.stat path] }
  exact ⟨tail, by simpa using h, ht⟩

theorem process_file_log_mono (o : Oracle) (perms : permset) (filei : Nat) (path : String)
    (s : ApplyState) (e : Event) (he : e ∈ s.log) :
    e ∈ (process_file o perms filei path s).log := by
  simp only [process_file]
  split
  · rename_i m _
    obtain ⟨tail, h, _⟩ := apply_new_mode_log o perms filei path
      { ret := s.ret, st_mode := m, log := s.log ++ [Event.stat path] }
    rw [h]
    simp [he]
  · rename_i errno _
    split_ifs
    · simp [he]
    · simp [he]
    · obtain ⟨tail, h, _⟩ := apply_new_mode_log o perms filei path
        { ret := s.ret, st_mode := s.st_mode,
          log := s.log ++ [Event.stat path] ++
            [Event.err ("Error: Unexpected error while trying to access "
              ++ path ++ " - " ++ o.strerror errno ++ "\n")] }
      rw [h]
      simp [he]

theorem change_permissions_loop_log_mono (o : Oracle) (perms : permset) (names : List String) :
    ∀ (k : Nat) (s : ApplyState) (e : Event), e ∈ s.log →
      e ∈ (change_permissions_loop o perms names k s).log := by
  induction names with
  | nil => intro k s e he; simpa [change_permissions_loop] using he
  | cons p more ih =>
    intro k s e he
    simp only [change_permissions_loop]
    exact ih _ _ _ (process_file_log_mono o perms k p s e he)

theorem change_permissions_loop_chmod_mem (o : Oracle) (perms : permset) (names : List String) :
    ∀ (k : Nat) (s : ApplyState) (j : Nat) (hj : j < names.length) (m : Nat),
      o.stat (k + j) (names.get ⟨j, hj⟩) = StatResult.ok m →
      Event.chmod (names.get ⟨j, hj⟩) (new_mode m perms)
        ∈ (change_permissions_loop o perms names k s).log := by
  induction names with
  | nil => intro k s j hj; simp at hj
  | cons p more ih =>
    intro k s j hj m hstat
    simp only [change_permissions_loop]
    cases j with
    | zero =>
      apply change_permissions_loop_log_mono
      obtain ⟨tail, h, _⟩ := process_file_log_ok o perms k p s m (by simpa using hstat)
      simp [h]
    | succ j =>
      have hj2 : j < more.length := by simpa using hj
      have := ih (k + 1) (process_file o perms k p s) j hj2 m
        (by simpa [Nat.add_assoc, Nat.add_comm 1 j] using hstat)
      simpa using this

/-! ## The mode computation -/

/-- C1: for a file whose `stat` succeeded with mode `m`, the mode given to
`chmod` is `(m | adds) ^ ((m | adds) & subs)`: the iteration for that file
issues exactly one `chmod`, with that mode, and the call is part of the run.
That value is `(m | adds)` with exactly the bits of `subs` cleared, which for
32-bit `mode_t` values is `(m | adds) & ~subs`. -/
theorem C1_chmod_mode (o : Oracle) (files : filelist) (perms : permset) (st_mode0 : Nat)
    (i : Nat) (hi : i < files.filenames.length) (m : Nat)
    (hstat : o.stat i (files.filenames.get ⟨i, hi⟩) = StatResult.ok m) :
    Event.chmod (files.filenames.get ⟨i, hi⟩)
        ((m ||| perms.adds) ^^^ ((m ||| perms.adds) &&& perms.subs))
      ∈ (change_permissions o files perms st_mode0).log
    ∧ (∀ s : ApplyState,
        chmod_calls (process_file o perms i (files.filenames.get ⟨i, hi⟩) s).log
          = chmod_calls s.log ++ [(files.filenames.get ⟨i, hi⟩,
              (m ||| perms.adds) ^^^ ((m ||| perms.adds) &&& perms.subs))])
    ∧ (∀ j, ((m ||| perms.adds) ^^^ ((m ||| perms.adds) &&& perms.subs)).testBit j
        = ((m ||| perms.adds).testBit j && !perms.subs.testBit j))
    ∧ (m < 2 ^ 32 → perms.adds < 2 ^ 32 →
        (m ||| perms.adds) ^^^ ((m ||| perms.adds) &&& perms.subs)
          = (m ||| perms.adds) &&& bnot32 perms.subs) := by
  refine ⟨?_, ?_, ?_, ?_⟩
  · have := change_permissions_loop_chmod_mem o perms files.filenames 0
      { ret := 0, st_mode := st_mode0, log := [] } i hi m (by simpa using hstat)
    simpa [change_permissions, new_mode] using this
  · intro s
    obtain ⟨tail, h, ht⟩ := process_file_log_ok o perms i _ s m hstat
    have htail : chmod_calls tail = [] := by
      unfold chmod_calls
      rw [List.filterMap_eq_nil_iff]
      intro e he
      obtain ⟨msg, rfl⟩ := ht e he
      rfl
    rw [h]
    unfold chmod_calls at htail ⊢
    simp [List.filterMap_append, List.filterMap_cons, htail, new_mode]
  · intro j
    have := testBit_new_mode m perms j
    simpa [new_mode] using this
  · intro hm ha
    have := new_mode_eq_and_bnot32 m perms hm ha
    simpa [new_mode] using this

theorem C1_chmod_mode_witness :
    Event.chmod "a.txt" 0o100744
      ∈ (change_permissions sample_oracle { list_capacity := 100, filenames := ["a.txt"] }
          { adds := 0o700, subs := 0o020 } 0).log
    ∧ (0o100644 ||| 0o700) ^^^ ((0o100644 ||| 0o700) &&& 0o020)
        = (0o100644 ||| 0o700) &&& bnot32 0o020 := by
  have h := C1_chmod_mode sample_oracle { list_capacity := 100, filenames := ["a.txt"] }
    { adds := 0o700, subs := 0o020 } 0 0 (by decide) 0o100644 (by decide)
  exact ⟨h.1, h.2.2.2 (by decide) (by decide)⟩

/-- C5: for a change-set with `adds & subs = 0` the new mode has every bit of
`adds` set, every bit of `subs` clear, and every other bit as in the current
mode; an add-only change applied to mode 000 gives exactly `adds`, and a
remove-only change applied to 0777 gives 0777 with exactly the bits of `subs`
cleared. -/
theorem C5_new_mode_frame (m : Nat) (perms : permset) (hdisj : perms.adds &&& perms.subs = 0) :
    (∀ i, perms.adds.testBit i = true → (new_mode m perms).testBit i = true)
    ∧ (∀ i, perms.subs.testBit i = true → (new_mode m perms).testBit i = false)
    ∧ (∀ i, perms.adds.testBit i = false → perms.subs.testBit i = false →
        (new_mode m perms).testBit i = m.testBit i)
    ∧ (∀ adds, new_mode 0 { adds := adds, subs := 0 } = adds)
    ∧ (∀ subs i, (new_mode 0o777 { adds := 0, subs := subs }).testBit i
        = (Nat.testBit 0o777 i && !subs.testBit i))
    ∧ (∀ subs, subs ≤ 0o777 → new_mode 0o777 { adds := 0, subs := subs } = 0o777 - subs) := by
  have hd : ∀ i, (perms.adds.testBit i && perms.subs.testBit i) = false := by
    intro i
    rw [← Nat.testBit_and, hdisj, Nat.zero_testBit]
  refine ⟨?_, ?_, ?_, ?_, ?_, ?_⟩
  · intro i ha
    have := hd i
    rw [ha] at this
    rw [testBit_new_mode, ha]
    simpa using this
  · intro i hs
    rw [testBit_new_mode, hs]
    simp
  · intro i ha hs
    rw [testBit_new_mode, ha, hs]
    simp
  · intro adds
    apply Nat.eq_of_testBit_eq
    intro i
    rw [testBit_new_mode]
    simp
  · intro subs i
    rw [testBit_new_mode]
    simp
  · intro subs hsubs
    apply Nat.eq_of_testBit_eq
    intro i
    have hlt : subs < 2 ^ 9 := by omega
    have h1 : (0o777 : Nat) - subs = 2 ^ 9 - (subs + 1) := by omega
    have h2 : (0o777 : Nat) = 2 ^ 9 - 1 := by decide
    rw [testBit_new_mode, h1, Nat.testBit_two_pow_sub_succ hlt]
    simp only [Nat.zero_testBit, Bool.or_false, h2, Nat.testBit_two_pow_sub_one]

theorem C5_new_mode_frame_witness :
    (0o700 : Nat) &&& 0o020 = 0
    ∧ (∀ i, Nat.testBit 0o700 i = false → Nat.testBit 0o020 i = false →
        (new_mode 0o640 { adds := 0o700, subs := 0o020 }).testBit i = Nat.testBit 0o640 i) :=
  ⟨by decide, (C5_new_mode_frame 0o640 { adds := 0o700, subs := 0o020 } (by decide)).2.2.1⟩

/-- C6: the mode computation is idempotent: computing the new mode from a mode
that is itself the result of the same change-set gives that mode again, for
every change-set and every mode. -/
theorem C6_new_mode_idempotent (m : Nat) (perms : permset) :
    new_mode (new_mode m perms) perms = new_mode m perms := by
  apply Nat.eq_of_testBit_eq
  intro i
  simp only [testBit_new_mode]
  cases m.testBit i <;> cases perms.adds.testBit i <;> cases perms.subs.testBit i <;> rfl

/-! ## Building the change-set -/

theorem add_change_to_set_valid (set : Nat) (arg : String) (modeset : Nat)
    (harg : valid_letters arg) :
    add_change_to_set set arg modeset
      = { ret := 0, set := set ||| (spec_letter_bits arg.data <<< spec_class_shift modeset), log := [] } := by
  unfold add_change_to_set
  rw [add_change_to_set_loop_valid arg.data 0 harg]
  simp only [Nat.zero_or, spec_class_shift]
  split_ifs <;> simp

theorem add_change_to_set_loop_lt (l : List Char) :
    ∀ (acc v : Nat), acc < 2 ^ 3 → add_change_to_set_loop l acc = Except.ok v → v < 2 ^ 3 := by
  induction l with
  | nil =>
    intro acc v hacc h
    simp only [add_change_to_set_loop, Except.ok.injEq] at h
    omega
  | cons c cs ih =>
    intro acc v hacc h
    simp only [add_change_to_set_loop] at h
    split_ifs at h
    · exact ih _ _ (Nat.or_lt_two_pow hacc (by decide)) h
    · exact ih _ _ (Nat.or_lt_two_pow hacc (by decide)) h
    · exact ih _ _ (Nat.or_lt_two_pow hacc (by decide)) h

theorem shiftLeft_lt_two_pow_nine (v k : Nat) (hv : v < 2 ^ 3) (hk : k ≤ 6) : v <<< k < 2 ^ 9 := by
  rw [Nat.shiftLeft_eq]
  calc v * 2 ^ k ≤ v * 2 ^ 6 := Nat.mul_le_mul_left _ (Nat.pow_le_pow_right (by decide) hk)
    _ < 2 ^ 9 := by omega

theorem add_change_to_set_lt (set : Nat) (arg : String) (modeset : Nat) (hset : set < 2 ^ 9) :
    (add_change_to_set set arg modeset).set < 2 ^ 9 := by
  unfold add_change_to_set
  cases h : add_change_to_set_loop arg.data 0 with
  | error c => exact hset
  | ok v =>
    have hv : v < 2 ^ 3 := add_change_to_set_loop_lt arg.data 0 v (by decide) h
    simp only
    apply Nat.or_lt_two_pow hset
    split_ifs
    · exact shiftLeft_lt_two_pow_nine v 6 hv (by decide)
    · exact shiftLeft_lt_two_pow_nine v 3 hv (by decide)
    · exact lt_of_lt_of_le hv (by decide)

theorem add_change_to_set_ret (set : Nat) (arg : String) (modeset : Nat) :
    (add_change_to_set set arg modeset).ret = 0 ∨
      ((add_change_to_set set arg modeset).ret = 1 ∧ (add_change_to_set set arg modeset).set = set) := by
  unfold add_change_to_set
  cases add_change_to_set_loop arg.data 0 with
  | error c => right; exact ⟨rfl, rfl⟩
  | ok v => left; rfl

theorem parse_switches_lt (argv0 : String) (opts : List (Char × String)) :
    ∀ perms : permset, perms.adds < 2 ^ 9 → perms.subs < 2 ^ 9 →
      (parse_switches argv0 opts perms).2.1.adds < 2 ^ 9
        ∧ (parse_switches argv0 opts perms).2.1.subs < 2 ^ 9 := by
  induction opts with
  | nil => intro perms ha hs; exact ⟨ha, hs⟩
  | cons f more ih =>
    intro perms ha hs
    obtain ⟨c, optarg⟩ := f
    have hu := add_change_to_set_lt perms.adds optarg USR ha
    have hg := add_change_to_set_lt perms.adds optarg GRP ha
    have ho := add_change_to_set_lt perms.adds optarg OTH ha
    have hU := add_change_to_set_lt perms.subs optarg USR hs
    have hG := add_change_to_set_lt perms.subs optarg GRP hs
    have hO := add_change_to_set_lt perms.subs optarg OTH hs
    simp only [parse_switches]
    split_ifs
    all_goals first
      | exact ⟨ha, hs⟩
      | exact ⟨hu, hs⟩
      | exact ⟨hg, hs⟩
      | exact ⟨ho, hs⟩
      | exact ⟨ha, hU⟩
      | exact ⟨ha, hG⟩
      | exact ⟨ha, hO⟩
      | exact ih _ hu hs
      | exact ih _ hg hs
      | exact ih _ ho hs
      | exact ih _ ha hU
      | exact ih _ ha hG
      | exact ih _ ha hO

theorem parse_switches_valid (argv0 : String) (opts : List (Char × String)) :
    ∀ perms : permset, (∀ f ∈ opts, recognised f) → (∀ f ∈ opts, valid_letters f.2) →
      parse_switches argv0 opts perms
        = (none, { adds := perms.adds ||| spec_requested_adds opts,
                   subs := perms.subs ||| spec_requested_subs opts }, []) := by
  induction opts with
  | nil => intro perms _ _; simp [parse_switches, spec_requested_adds, spec_requested_subs]
  | cons f more ih =>
    intro perms hrec hval
    obtain ⟨c, optarg⟩ := f
    have hrec2 : ∀ f ∈ more, recognised f := fun f hf => hrec f (List.mem_cons_of_mem _ hf)
    have hval2 : ∀ f ∈ more, valid_letters f.2 := fun f hf => hval f (List.mem_cons_of_mem _ hf)
    have harg : valid_letters optarg := hval (c, optarg) (List.mem_cons_self _ _)
    have hc : recognised (c, optarg) := hrec (c, optarg) (List.mem_cons_self _ _)
    simp only [recognised] at hc
    rcases hc with rfl | rfl | rfl | rfl | rfl | rfl <;>
      simp [parse_switches, add_change_to_set_valid _ _ _ harg, ih _ hrec2 hval2,
        spec_requested_adds, spec_requested_subs, spec_add_request, spec_sub_request, spec_class_shift, USR, GRP, OTH,
        Nat.or_assoc]

theorem and_0700_ne_zero (x : Nat) :
    x &&& 0o700 ≠ 0 ↔ (x.testBit 8 || x.testBit 7 || x.testBit 6) = true := by
  have hm : (0o700 : Nat) = 2 ^ (6 + 2) ||| 2 ^ (6 + 1) ||| 2 ^ 6 := by decide
  rw [hm]
  exact and_mask3_ne_zero x 6

theorem and_0070_ne_zero (x : Nat) :
    x &&& 0o070 ≠ 0 ↔ (x.testBit 5 || x.testBit 4 || x.testBit 3) = true := by
  have hm : (0o070 : Nat) = 2 ^ (3 + 2) ||| 2 ^ (3 + 1) ||| 2 ^ 3 := by decide
  rw [hm]
  exact and_mask3_ne_zero x 3

theorem and_0007_ne_zero (x : Nat) :
    x &&& 0o007 ≠ 0 ↔ (x.testBit 2 || x.testBit 1 || x.testBit 0) = true := by
  have hm : (0o007 : Nat) = 2 ^ (0 + 2) ||| 2 ^ (0 + 1) ||| 2 ^ 0 := by decide
  rw [hm]
  exact and_mask3_ne_zero x 0

/-- No class conflicts exactly when `adds & subs` has none of the nine
permission bits. -/
theorem no_conflict_iff (x : Nat) :
    (x &&& 0o700 = 0 ∧ x &&& 0o070 = 0 ∧ x &&& 0o007 = 0)
      ↔ ∀ i, i < 9 → x.testBit i = false := by
  have h1 := and_0700_ne_zero x
  have h2 := and_0070_ne_zero x
  have h3 := and_0007_ne_zero x
  constructor
  · rintro ⟨a, b, c⟩ i hi
    have a2 : ¬ (x.testBit 8 || x.testBit 7 || x.testBit 6) = true := fun h => h1.2 h a
    have b2 : ¬ (x.testBit 5 || x.testBit 4 || x.testBit 3) = true := fun h => h2.2 h b
    have c2 : ¬ (x.testBit 2 || x.testBit 1 || x.testBit 0) = true := fun h => h3.2 h c
    simp only [Bool.or_eq_true, not_or, Bool.not_eq_true] at a2 b2 c2
    interval_cases i
    · exact c2.2
    · exact c2.1.2
    · exact c2.1.1
    · exact b2.2
    · exact b2.1.2
    · exact b2.1.1
    · exact a2.2
    · exact a2.1.2
    · exact a2.1.1
  · intro h
    refine ⟨?_, ?_, ?_⟩
    · by_contra hne
      have := h1.1 hne
      simp [h 8 (by decide), h 7 (by decide), h 6 (by decide)] at this
    · by_contra hne
      have := h2.1 hne
      simp [h 5 (by decide), h 4 (by decide), h 3 (by decide)] at this
    · by_contra hne
      have := h3.1 hne
      simp [h 2 (by decide), h 1 (by decide), h 0 (by decide)] at this

theorem spec_validate_fst_eq_three (perms : permset) (n : Nat) :
    (spec_validate perms n).1 = 3
      ↔ ∃ i, i < 9 ∧ (perms.adds &&& perms.subs).testBit i = true := by
  have hnc := no_conflict_iff (perms.adds &&& perms.subs)
  unfold spec_validate
  split_ifs with h1 h2 h3 h4
  · simp only [true_iff]
    by_contra hno
    have : ∀ i, i < 9 → (perms.adds &&& perms.subs).testBit i = false := by
      intro i hi
      by_contra hb
      exact hno ⟨i, hi, by simpa using hb⟩
    exact h1 (hnc.2 this).1
  · simp only [true_iff]
    by_contra hno
    have : ∀ i, i < 9 → (perms.adds &&& perms.subs).testBit i = false := by
      intro i hi
      by_contra hb
      exact hno ⟨i, hi, by simpa using hb⟩
    exact h2 (hnc.2 this).2.1
  · simp only [true_iff]
    by_contra hno
    have : ∀ i, i < 9 → (perms.adds &&& perms.subs).testBit i = false := by
      intro i hi
      by_contra hb
      exact hno ⟨i, hi, by simpa using hb⟩
    exact h3 (hnc.2 this).2.2
  · have hall := hnc.1 ⟨not_not.1 h1, not_not.1 h2, not_not.1 h3⟩
    constructor
    · intro h; exact absurd h (by decide)
    · rintro ⟨i, hi, hb⟩
      rw [hall i hi] at hb
      exact absurd hb (by decide)
  · have hall := hnc.1 ⟨not_not.1 h1, not_not.1 h2, not_not.1 h3⟩
    constructor
    · intro h; exact absurd h (by decide)
    · rintro ⟨i, hi, hb⟩
      rw [hall i hi] at hb
      exact absurd hb (by decide)

theorem spec_validate_fst_eq_zero (perms : permset) (n : Nat)
    (h : (spec_validate perms n).1 = 0) :
    (∀ i, i < 9 → (perms.adds &&& perms.subs).testBit i = false) ∧ n ≠ 0 := by
  have hnc := no_conflict_iff (perms.adds &&& perms.subs)
  unfold spec_validate at h
  by_cases h1 : perms.adds &&& perms.subs &&& 0o700 ≠ 0
  · rw [if_pos h1] at h; exact absurd h (by decide)
  · rw [if_neg h1] at h
    by_cases h2 : perms.adds &&& perms.subs &&& 0o070 ≠ 0
    · rw [if_pos h2] at h; exact absurd h (by decide)
    · rw [if_neg h2] at h
      by_cases h3 : perms.adds &&& perms.subs &&& 0o007 ≠ 0
      · rw [if_pos h3] at h; exact absurd h (by decide)
      · rw [if_neg h3] at h
        by_cases h4 : n = 0
        · rw [if_pos h4] at h; exact absurd h (by decide)
        · exact ⟨hnc.1 ⟨not_not.1 h1, not_not.1 h2, not_not.1 h3⟩, h4⟩

theorem add_request_lt (f : Char × String) : spec_add_request f < 2 ^ 9 := by
  have hv : spec_letter_bits f.2.data < 2 ^ 3 := letter_bits_lt _
  unfold spec_add_request
  split_ifs
  · exact shiftLeft_lt_two_pow_nine _ 6 hv (by decide)
  · exact shiftLeft_lt_two_pow_nine _ 3 hv (by decide)
  · exact shiftLeft_lt_two_pow_nine _ 0 hv (by decide)
  · decide

theorem testBit_requested_adds_of_mem (opts : List (Char × String)) (f : Char × String)
    (hf : f ∈ opts) (i : Nat) (hb : (spec_add_request f).testBit i = true) :
    (spec_requested_adds opts).testBit i = true := by
  induction opts with
  | nil => simp at hf
  | cons g more ih =>
    simp only [spec_requested_adds, Nat.testBit_or, Bool.or_eq_true]
    rcases List.mem_cons.1 hf with rfl | hmem
    · exact Or.inl hb
    · exact Or.inr (ih hmem)

theorem testBit_requested_subs_of_mem (opts : List (Char × String)) (f : Char × String)
    (hf : f ∈ opts) (i : Nat) (hb : (spec_sub_request f).testBit i = true) :
    (spec_requested_subs opts).testBit i = true := by
  induction opts with
  | nil => simp at hf
  | cons g more ih =>
    simp only [spec_requested_subs, Nat.testBit_or, Bool.or_eq_true]
    rcases List.mem_cons.1 hf with rfl | hmem
    · exact Or.inl hb
    · exact Or.inr (ih hmem)

theorem parse_switches_fst (argv0 : String) (opts : List (Char × String)) :
    ∀ perms : permset, (parse_switches argv0 opts perms).1 = none
      ∨ (parse_switches argv0 opts perms).1 = some 1 := by
  induction opts with
  | nil => intro perms; exact Or.inl rfl
  | cons f more ih =>
    intro perms
    obtain ⟨c, optarg⟩ := f
    simp only [parse_switches]
    split_ifs
    all_goals first
      | exact Or.inr rfl
      | exact ih _

theorem add_filenames_filenames (rest : List String) :
    ∀ files : filelist, (add_filenames rest files).filenames = files.filenames ++ rest := by
  induction rest with
  | nil => intro files; simp [add_filenames]
  | cons name more ih =>
    intro files
    simp [add_filenames, ih, add_to_file_list]

theorem add_filenames_list_size (rest : List String) (files : filelist) :
    (add_filenames rest files).list_size = files.list_size + rest.length := by
  simp [filelist.list_size, add_filenames_filenames]

/-- Past the argument count and the option loop, `parse_cmd_line` is the
validator of the specification applied to the accumulated change-set. -/
theorem parse_cmd_line_of_switches (argc : Nat) (argv0 : String) (opts : List (Char × String))
    (rest : List String) (perms : permset) (files : filelist) (perms1 : permset)
    (log1 : List Event) (hargc : 4 ≤ argc)
    (hsw : parse_switches argv0 opts perms = (none, perms1, log1)) :
    parse_cmd_line argc argv0 opts rest perms files
      = { ret := (spec_validate perms1 (files.list_size + rest.length)).1,
          perms := perms1,
          files := add_filenames rest files,
          log := log1 ++ (spec_validate perms1 (files.list_size + rest.length)).2 } := by
  unfold parse_cmd_line
  rw [if_neg (by omega), hsw]
  simp only [check_conflicts_eq_spec, add_filenames_list_size]

theorem parse_cmd_line_ret_zero (argc : Nat) (argv0 : String) (opts : List (Char × String))
    (rest : List String) (perms : permset) (files : filelist)
    (h : (parse_cmd_line argc argv0 opts rest perms files).ret = 0) :
    4 ≤ argc ∧ (parse_switches argv0 opts perms).1 = none := by
  unfold parse_cmd_line at h
  by_cases hargc : argc < 4
  · rw [if_pos hargc] at h
    simp at h
  · rw [if_neg hargc] at h
    refine ⟨by omega, ?_⟩
    rcases parse_switches_fst argv0 opts perms with hn | hs
    · exact hn
    · rcases hp : parse_switches argv0 opts perms with ⟨r, perms1, log1⟩
      rw [hp] at hs h
      simp only at hs
      subst hs
      simp at h

theorem and_eq_zero_of_low_bits (a s : Nat) (ha : a < 2 ^ 9)
    (h : ∀ i, i < 9 → (a &&& s).testBit i = false) : a &&& s = 0 := by
  apply Nat.zero_of_testBit_eq_false
  intro i
  by_cases hi : i < 9
  · exact h i hi
  · rw [Nat.testBit_and, testBit_of_lt_two_pow ha (Nat.le_of_not_lt hi)]
    rfl

theorem testBit_letter_bits (l : List Char) :
    (spec_letter_bits l).testBit 2 = decide ('r' ∈ l)
      ∧ (spec_letter_bits l).testBit 1 = decide ('w' ∈ l)
      ∧ (spec_letter_bits l).testBit 0 = decide ('x' ∈ l) := by
  unfold spec_letter_bits
  by_cases hr : 'r' ∈ l <;> by_cases hw : 'w' ∈ l <;> by_cases hx : 'x' ∈ l <;>
    simp [hr, hw, hx] <;> decide

/-! ## The change-set builder -/

/-- C2: for a string of the letters `r`, `w`, `x` only (any order, any
repetition, possibly empty) and every class, `add_change_to_set` returns 0,
prints nothing, and ORs into `*set` the value `r→4, w→2, x→1` of the letters
that occur, shifted left by 6 for USR, 3 for GRP and 0 for OTH.  The bits land
only in the three positions of the class, bit `shift+2`, `shift+1`, `shift`
being set exactly when `r`, `w`, `x` occurs, and two strings with the same set
of letters give the same result. -/
theorem C2_add_change_to_set_valid (set : Nat) (s : String) (modeset : Nat)
    (hs : ∀ c ∈ s.data, c = 'r' ∨ c = 'w' ∨ c = 'x') :
    (add_change_to_set set s modeset).ret = 0
    ∧ (add_change_to_set set s modeset).log = []
    ∧ (add_change_to_set set s modeset).set
        = set ||| (spec_letter_bits s.data <<< spec_class_shift modeset)
    ∧ (spec_class_shift USR = 6 ∧ spec_class_shift GRP = 3 ∧ spec_class_shift OTH = 0)
    ∧ (∀ i, (spec_letter_bits s.data <<< spec_class_shift modeset).testBit i = true →
        spec_class_shift modeset ≤ i ∧ i < spec_class_shift modeset + 3)
    ∧ ((spec_letter_bits s.data <<< spec_class_shift modeset).testBit (spec_class_shift modeset + 2)
          = decide ('r' ∈ s.data)
        ∧ (spec_letter_bits s.data <<< spec_class_shift modeset).testBit (spec_class_shift modeset + 1)
          = decide ('w' ∈ s.data)
        ∧ (spec_letter_bits s.data <<< spec_class_shift modeset).testBit (spec_class_shift modeset)
          = decide ('x' ∈ s.data))
    ∧ (∀ s2 : String, (∀ c, c ∈ s2.data ↔ c ∈ s.data) →
        add_change_to_set set s2 modeset = add_change_to_set set s modeset) := by
  have hv := add_change_to_set_valid set s modeset hs
  obtain ⟨hr, hw, hx⟩ := testBit_letter_bits s.data
  refine ⟨by rw [hv], by rw [hv], by rw [hv], ⟨by decide, by decide, by decide⟩, ?_, ⟨?_, ?_, ?_⟩, ?_⟩
  · intro i hi
    rw [Nat.testBit_shiftLeft] at hi
    simp only [Bool.and_eq_true, decide_eq_true_eq] at hi
    refine ⟨hi.1, ?_⟩
    by_contra hge
    have h3 : 3 ≤ i - spec_class_shift modeset := by omega
    have := testBit_of_lt_two_pow (letter_bits_lt s.data) h3
    rw [this] at hi
    exact absurd hi.2 (by decide)
  · rw [Nat.testBit_shiftLeft, Nat.add_sub_cancel_left, hr]
    simp
  · rw [Nat.testBit_shiftLeft, Nat.add_sub_cancel_left, hw]
    simp
  · rw [Nat.testBit_shiftLeft, Nat.sub_self, hx]
    simp
  · intro s2 hsame
    have hs2 : valid_letters s2 := fun c hc => hs c ((hsame c).1 hc)
    rw [hv, add_change_to_set_valid set s2 modeset hs2]
    simp only [spec_letter_bits, hsame]

theorem C2_add_change_to_set_valid_witness :
    (∀ c ∈ "xrx".data, c = 'r' ∨ c = 'w' ∨ c = 'x')
    ∧ (add_change_to_set 0o020 "xrx" USR).ret = 0
    ∧ (add_change_to_set 0o020 "xrx" USR).set = 0o520 := by
  have h := C2_add_change_to_set_valid 0o020 "xrx" USR (by decide)
  refine ⟨by decide, h.1, ?_⟩
  rw [h.2.2.1]
  decide

/-! ## Validation -/

theorem parse_cmd_line_valid (argc : Nat) (argv0 : String) (opts : List (Char × String))
    (rest : List String) (perms : permset) (files : filelist) (hargc : 4 ≤ argc)
    (hrec : ∀ f ∈ opts, recognised f) (hval : ∀ f ∈ opts, valid_letters f.2) :
    parse_cmd_line argc argv0 opts rest perms files
      = { ret := (spec_validate { adds := perms.adds ||| spec_requested_adds opts,
                                  subs := perms.subs ||| spec_requested_subs opts }
                    (files.list_size + rest.length)).1,
          perms := { adds := perms.adds ||| spec_requested_adds opts,
                     subs := perms.subs ||| spec_requested_subs opts },
          files := add_filenames rest files,
          log := (spec_validate { adds := perms.adds ||| spec_requested_adds opts,
                                  subs := perms.subs ||| spec_requested_subs opts }
                    (files.list_size + rest.length)).2 } := by
  rw [parse_cmd_line_of_switches argc argv0 opts rest perms files _ _ hargc
    (parse_switches_valid argv0 opts perms hrec hval)]
  simp

theorem spec_validate_log_err (perms : permset) (n : Nat) :
    stat_calls (spec_validate perms n).2 = [] ∧ chmod_calls (spec_validate perms n).2 = [] := by
  unfold spec_validate
  split_ifs <;> exact ⟨rfl, rfl⟩

theorem stat_calls_append (a b : List Event) :
    stat_calls (a ++ b) = stat_calls a ++ stat_calls b := by
  simp [stat_calls, List.filterMap_append]

theorem chmod_calls_append (a b : List Event) :
    chmod_calls (a ++ b) = chmod_calls a ++ chmod_calls b := by
  simp [chmod_calls, List.filterMap_append]

theorem diagnostics_append (a b : List Event) :
    diagnostics (a ++ b) = diagnostics a ++ diagnostics b := by
  simp [diagnostics, List.filterMap_append]

theorem main_of_parse_failure (argc : Nat) (argv0 : String) (opts : List (Char × String))
    (rest : List String) (o : Oracle) (st_mode0 : Nat)
    (h : (parse_cmd_line argc argv0 opts rest { adds := 0, subs := 0 }
            { list_capacity := 0, filenames := [] }).ret ≠ 0) :
    main argc argv0 opts rest o st_mode0
      = ((parse_cmd_line argc argv0 opts rest { adds := 0, subs := 0 }
            { list_capacity := 0, filenames := [] }).ret,
         (parse_cmd_line argc argv0 opts rest { adds := 0, subs := 0 }
            { list_capacity := 0, filenames := [] }).log ++ [Event.err usage]) := by
  simp only [main]
  rw [if_pos h]

/-- C3 (amended): for a command line with at least 3 tokens after the program
name in which every flag is one of `-u -g -o -U -G -O` and every flag value is
a string of `r`, `w`, `x`, if some permission bit is requested both by an add
flag and by a remove flag, then `parse_cmd_line` returns 3 and `main` returns
3 without calling `change_permissions`: no `stat` and no `chmod` is issued. -/
theorem C3_conflict_aborts (argc : Nat) (argv0 : String) (opts : List (Char × String))
    (rest : List String) (o : Oracle) (st_mode0 : Nat) (hargc : 4 ≤ argc)
    (hrec : ∀ f ∈ opts, recognised f) (hval : ∀ f ∈ opts, valid_letters f.2)
    (hconf : ∃ f ∈ opts, ∃ g ∈ opts, spec_add_request f &&& spec_sub_request g ≠ 0) :
    (∀ perms files, (parse_cmd_line argc argv0 opts rest perms files).ret = 3)
    ∧ (main argc argv0 opts rest o st_mode0).1 = 3
    ∧ stat_calls (main argc argv0 opts rest o st_mode0).2 = []
    ∧ chmod_calls (main argc argv0 opts rest o st_mode0).2 = [] := by
  obtain ⟨f, hf, g, hg, hne⟩ := hconf
  obtain ⟨i, hi⟩ := Nat.ne_zero_implies_bit_true hne
  rw [Nat.testBit_and, Bool.and_eq_true] at hi
  have hi9 : i < 9 := by
    by_contra hge
    have := testBit_of_lt_two_pow (add_request_lt f) (Nat.le_of_not_lt hge)
    rw [this] at hi
    exact absurd hi.1 (by decide)
  have hA := testBit_requested_adds_of_mem opts f hf i hi.1
  have hS := testBit_requested_subs_of_mem opts g hg i hi.2
  have hret : ∀ perms files, (parse_cmd_line argc argv0 opts rest perms files).ret = 3 := by
    intro perms files
    rw [parse_cmd_line_valid argc argv0 opts rest perms files hargc hrec hval]
    simp only
    rw [spec_validate_fst_eq_three]
    exact ⟨i, hi9, by simp [hA, hS]⟩
  have hmain := main_of_parse_failure argc argv0 opts rest o st_mode0
    (by rw [hret]; decide)
  refine ⟨hret, ?_, ?_, ?_⟩
  · rw [hmain, hret]
  · rw [hmain, parse_cmd_line_valid argc argv0 opts rest _ _ hargc hrec hval]
    simp only
    rw [stat_calls_append, (spec_validate_log_err _ _).1]
    rfl
  · rw [hmain, parse_cmd_line_valid argc argv0 opts rest _ _ hargc hrec hval]
    simp only
    rw [chmod_calls_append, (spec_validate_log_err _ _).2]
    rfl

theorem C3_conflict_aborts_witness :
    (4 ≤ 6)
    ∧ (∀ f ∈ [('u', "rw"), ('U', "w")], recognised f)
    ∧ (∀ f ∈ [('u', "rw"), ('U', "w")], valid_letters f.2)
    ∧ (∃ f ∈ [('u', "rw"), ('U', "w")], ∃ g ∈ [('u', "rw"), ('U', "w")],
        spec_add_request f &&& spec_sub_request g ≠ 0)
    ∧ (main 6 "mychmod" [('u', "rw"), ('U', "w")] ["a.txt"] sample_oracle 0).1 = 3
    ∧ stat_calls (main 6 "mychmod" [('u', "rw"), ('U', "w")] ["a.txt"] sample_oracle 0).2 = [] := by
  have hconf : ∃ f ∈ [('u', "rw"), ('U', "w")], ∃ g ∈ [('u', "rw"), ('U', "w")],
      spec_add_request f &&& spec_sub_request g ≠ 0 :=
    ⟨('u', "rw"), by simp, ('U', "w"), by simp, by decide⟩
  have h := C3_conflict_aborts 6 "mychmod" [('u', "rw"), ('U', "w")] ["a.txt"] sample_oracle 0
    (by decide) (by decide) (by decide) hconf
  exact ⟨by decide, by decide, by decide, hconf, h.2.1, h.2.2.1⟩

/-- C3 as stated fails when `getopt` meets a flag it does not know: for
`-u r -U r -z f` every flag value is a valid letter string and USER read is
both added and removed, yet the option loop returns 1 at `-z`, before the
conflict checks, so `parse_cmd_line` and `main` return 1, not 3. -/
theorem C3_counterexample :
    (4 ≤ 6)
    ∧ (∀ f ∈ [('u', "r"), ('U', "r"), ('?', "")], valid_letters f.2)
    ∧ (∃ f ∈ [('u', "r"), ('U', "r"), ('?', "")], ∃ g ∈ [('u', "r"), ('U', "r"), ('?', "")],
        spec_add_request f &&& spec_sub_request g ≠ 0)
    ∧ (parse_cmd_line 6 "mychmod" [('u', "r"), ('U', "r"), ('?', "")] ["f"]
        { adds := 0, subs := 0 } { list_capacity := 0, filenames := [] }).ret = 1
    ∧ (main 6 "mychmod" [('u', "r"), ('U', "r"), ('?', "")] ["f"] sample_oracle 0).1 = 1 :=
  ⟨by decide, by decide, ⟨('u', "r"), by simp, ('U', "r"), by simp, by decide⟩,
    by decide, by decide⟩

/-- C4: whenever `parse_cmd_line`, started from the zeroed change-set that
`main` supplies, returns 0, the resulting change-set is disjoint: no bit is
set in both `adds` and `subs`.  This holds for every sequence of `getopt`
results and every file list. -/
theorem C4_parse_ok_disjoint (argc : Nat) (argv0 : String) (opts : List (Char × String))
    (rest : List String) (files : filelist)
    (h : (parse_cmd_line argc argv0 opts rest { adds := 0, subs := 0 } files).ret = 0) :
    (parse_cmd_line argc argv0 opts rest { adds := 0, subs := 0 } files).perms.adds
      &&& (parse_cmd_line argc argv0 opts rest { adds := 0, subs := 0 } files).perms.subs = 0 := by
  obtain ⟨hargc, hnone⟩ := parse_cmd_line_ret_zero argc argv0 opts rest _ files h
  have hlt := parse_switches_lt argv0 opts { adds := 0, subs := 0 } (by decide) (by decide)
  rcases hp : parse_switches argv0 opts { adds := 0, subs := 0 } with ⟨r, perms1, log1⟩
  rw [hp] at hnone hlt
  simp only at hnone hlt
  subst hnone
  rw [parse_cmd_line_of_switches argc argv0 opts rest _ files perms1 log1 hargc hp] at h ⊢
  simp only at h ⊢
  exact and_eq_zero_of_low_bits _ _ hlt.1 (spec_validate_fst_eq_zero _ _ h).1

theorem C4_parse_ok_disjoint_witness :
    (parse_cmd_line 6 "mychmod" [('u', "rwx"), ('G', "w")] ["file.txt"]
        { adds := 0, subs := 0 } { list_capacity := 0, filenames := [] }).ret = 0
    ∧ (parse_cmd_line 6 "mychmod" [('u', "rwx"), ('G', "w")] ["file.txt"]
        { adds := 0, subs := 0 } { list_capacity := 0, filenames := [] }).perms.adds
      &&& (parse_cmd_line 6 "mychmod" [('u', "rwx"), ('G', "w")] ["file.txt"]
        { adds := 0, subs := 0 } { list_capacity := 0, filenames := [] }).perms.subs = 0 :=
  ⟨by decide, C4_parse_ok_disjoint 6 "mychmod" [('u', "rwx"), ('G', "w")] ["file.txt"]
    { list_capacity := 0, filenames := [] } (by decide)⟩

/-- C7: the conflict check of `parse_cmd_line` is the validator of the
specification.  The three tests of the source, written bit by bit, equal the
mask formula: a USER conflict iff `adds & subs & 0700 ≠ 0`; otherwise a GROUP
conflict iff `adds & subs & 0070 ≠ 0`; otherwise an OTHER conflict iff
`adds & subs & 0007 ≠ 0`; and only then the test for an empty file list.  So
for a command line that gets past the argument count and the option loop, the
return value and the diagnostic are those of `spec_validate` on the
accumulated change-set, and a command line with a conflict and no files
returns 3, not 1. -/
theorem C7_conflict_check_refines (argc : Nat) (argv0 : String) (opts : List (Char × String))
    (rest : List String) (perms : permset) (files : filelist) (hargc : 4 ≤ argc)
    (hsw : (parse_switches argv0 opts perms).1 = none) :
    (∀ (p : permset) (fl : filelist), check_conflicts p fl = spec_validate p fl.list_size)
    ∧ (parse_cmd_line argc argv0 opts rest perms files).perms
        = (parse_switches argv0 opts perms).2.1
    ∧ (parse_cmd_line argc argv0 opts rest perms files).ret
        = (spec_validate (parse_switches argv0 opts perms).2.1
            (files.list_size + rest.length)).1
    ∧ (parse_cmd_line argc argv0 opts rest perms files).log
        = (parse_switches argv0 opts perms).2.2
          ++ (spec_validate (parse_switches argv0 opts perms).2.1
                (files.list_size + rest.length)).2
    ∧ ((parse_switches argv0 opts perms).2.1.adds &&& (parse_switches argv0 opts perms).2.1.subs
          &&& 0o777 ≠ 0 →
        (parse_cmd_line argc argv0 opts rest perms files).ret = 3) := by
  rcases hp : parse_switches argv0 opts perms with ⟨r, perms1, log1⟩
  rw [hp] at hsw
  simp only at hsw
  subst hsw
  rw [parse_cmd_line_of_switches argc argv0 opts rest perms files perms1 log1 hargc hp]
  refine ⟨check_conflicts_eq_spec, rfl, rfl, rfl, ?_⟩
  intro hne
  simp only
  rw [spec_validate_fst_eq_three]
  obtain ⟨i, hi⟩ := Nat.ne_zero_implies_bit_true hne
  rw [Nat.testBit_and, Bool.and_eq_true] at hi
  refine ⟨i, ?_, hi.1⟩
  by_contra hge
  have h777 : (0o777 : Nat) < 2 ^ 9 := by decide
  have := testBit_of_lt_two_pow h777 (Nat.le_of_not_lt hge)
  rw [this] at hi
  exact absurd hi.2 (by decide)

theorem C7_conflict_check_refines_witness :
    (4 ≤ 5)
    ∧ (parse_switches "mychmod" [('g', "x"), ('G', "x")] { adds := 0, subs := 0 }).1 = none
    ∧ (parse_cmd_line 5 "mychmod" [('g', "x"), ('G', "x")] [] { adds := 0, subs := 0 }
        { list_capacity := 0, filenames := [] }).ret = 3
    ∧ (parse_cmd_line 5 "mychmod" [('g', "x"), ('G', "x")] [] { adds := 0, subs := 0 }
        { list_capacity := 0, filenames := [] }).log
        = [Event.err "Error: Conflicting GROUP permission options\n"] := by
  have h := C7_conflict_check_refines 5 "mychmod" [('g', "x"), ('G', "x")] []
    { adds := 0, subs := 0 } { list_capacity := 0, filenames := [] } (by decide) (by decide)
  refine ⟨by decide, by decide, h.2.2.2.2 (by decide), ?_⟩
  rw [h.2.2.2.1]
  decide

theorem requested_adds_lt (opts : List (Char × String)) : spec_requested_adds opts < 2 ^ 9 := by
  induction opts with
  | nil => decide
  | cons f more ih => exact Nat.or_lt_two_pow (add_request_lt f) ih

theorem spec_validate_no_files (perms : permset) (h : perms.adds &&& perms.subs = 0) :
    spec_validate perms 0 = (1, [Event.err "Error: No files given\n"]) := by
  simp [spec_validate, h]

theorem add_change_to_set_log (set : Nat) (arg : String) (modeset : Nat) :
    stat_calls (add_change_to_set set arg modeset).log = []
      ∧ chmod_calls (add_change_to_set set arg modeset).log = [] := by
  unfold add_change_to_set
  cases add_change_to_set_loop arg.data 0 with
  | error c => exact ⟨rfl, rfl⟩
  | ok v => exact ⟨rfl, rfl⟩

theorem parse_switches_log (argv0 : String) (opts : List (Char × String)) :
    ∀ perms : permset, stat_calls (parse_switches argv0 opts perms).2.2 = []
      ∧ chmod_calls (parse_switches argv0 opts perms).2.2 = [] := by
  induction opts with
  | nil => intro perms; exact ⟨rfl, rfl⟩
  | cons f more ih =>
    intro perms
    obtain ⟨c, optarg⟩ := f
    simp only [parse_switches]
    split_ifs
    all_goals first
      | exact ih _
      | exact add_change_to_set_log _ _ _
      | exact ⟨rfl, rfl⟩

theorem spec_validate_fst_cases (perms : permset) (n : Nat) :
    (spec_validate perms n).1 = 3 ∨ (spec_validate perms n).1 = 1
      ∨ ((spec_validate perms n).1 = 0 ∧ n ≠ 0) := by
  unfold spec_validate
  split_ifs with h1 h2 h3 h4
  · exact Or.inl rfl
  · exact Or.inl rfl
  · exact Or.inl rfl
  · exact Or.inr (Or.inl rfl)
  · exact Or.inr (Or.inr ⟨rfl, h4⟩)

/-- What `parse_cmd_line` can return and print, for any input: the value is 1
or 3, or it is 0 and the file list is not empty; nothing but diagnostics is
produced. -/
theorem parse_cmd_line_outcome (argc : Nat) (argv0 : String) (opts : List (Char × String))
    (rest : List String) (perms : permset) (files : filelist) :
    ((parse_cmd_line argc argv0 opts rest perms files).ret = 3
      ∨ (parse_cmd_line argc argv0 opts rest perms files).ret = 1
      ∨ ((parse_cmd_line argc argv0 opts rest perms files).ret = 0
          ∧ files.list_size + rest.length ≠ 0))
    ∧ stat_calls (parse_cmd_line argc argv0 opts rest perms files).log = []
    ∧ chmod_calls (parse_cmd_line argc argv0 opts rest perms files).log = [] := by
  by_cases hargc : argc < 4
  · simp only [parse_cmd_line, if_pos hargc]
    exact ⟨by simp, rfl, rfl⟩
  · have hlog := parse_switches_log argv0 opts perms
    rcases hp : parse_switches argv0 opts perms with ⟨r, perms1, log1⟩
    rw [hp] at hlog
    simp only at hlog
    cases r with
    | none =>
      rw [parse_cmd_line_of_switches argc argv0 opts rest perms files perms1 log1 (by omega) hp]
      simp only
      refine ⟨spec_validate_fst_cases _ _, ?_, ?_⟩
      · rw [stat_calls_append, hlog.1, (spec_validate_log_err _ _).1]
        rfl
      · rw [chmod_calls_append, hlog.2, (spec_validate_log_err _ _).2]
        rfl
    | some v =>
      have hv := parse_switches_fst argv0 opts perms
      rw [hp] at hv
      rcases hv with hv | hv
      · simp at hv
      · simp only [Option.some.injEq] at hv
        subst hv
        simp only [parse_cmd_line, if_neg hargc, hp]
        exact ⟨by simp, hlog.1, hlog.2⟩

/-- C8 (amended): for every command line in which all arguments are flags, so
that the file list is empty after parsing, the run fails without touching a
file: `parse_cmd_line` returns 1 or 3, `main` returns the same and issues no
`stat` or `chmod`.  When the command line has at least 3 tokens after the
program name, recognised flags and valid letter strings, the failure is the
parse error `No files given` with result code 1 if no permission bit is
requested both as an addition and as a removal; if some bit is, the conflict
checks, which come before the test for an empty file list, give result
code 3. -/
theorem C8_no_files (argc : Nat) (argv0 : String) (opts : List (Char × String))
    (o : Oracle) (st_mode0 : Nat) :
    ((parse_cmd_line argc argv0 opts [] { adds := 0, subs := 0 }
          { list_capacity := 0, filenames := [] }).ret = 1
      ∨ (parse_cmd_line argc argv0 opts [] { adds := 0, subs := 0 }
          { list_capacity := 0, filenames := [] }).ret = 3)
    ∧ (main argc argv0 opts [] o st_mode0).1
        = (parse_cmd_line argc argv0 opts [] { adds := 0, subs := 0 }
            { list_capacity := 0, filenames := [] }).ret
    ∧ stat_calls (main argc argv0 opts [] o st_mode0).2 = []
    ∧ chmod_calls (main argc argv0 opts [] o st_mode0).2 = []
    ∧ (4 ≤ argc → (∀ f ∈ opts, recognised f) → (∀ f ∈ opts, valid_letters f.2) →
        (spec_requested_adds opts &&& spec_requested_subs opts = 0 →
          (parse_cmd_line argc argv0 opts [] { adds := 0, subs := 0 }
              { list_capacity := 0, filenames := [] }).ret = 1
          ∧ (parse_cmd_line argc argv0 opts [] { adds := 0, subs := 0 }
              { list_capacity := 0, filenames := [] }).log
              = [Event.err "Error: No files given\n"])
        ∧ (spec_requested_adds opts &&& spec_requested_subs opts ≠ 0 →
          (parse_cmd_line argc argv0 opts [] { adds := 0, subs := 0 }
              { list_capacity := 0, filenames := [] }).ret = 3)) := by
  obtain ⟨hret, hstat, hchmod⟩ := parse_cmd_line_outcome argc argv0 opts []
    { adds := 0, subs := 0 } { list_capacity := 0, filenames := [] }
  have hret2 : (parse_cmd_line argc argv0 opts [] { adds := 0, subs := 0 }
        { list_capacity := 0, filenames := [] }).ret = 1
      ∨ (parse_cmd_line argc argv0 opts [] { adds := 0, subs := 0 }
        { list_capacity := 0, filenames := [] }).ret = 3 := by
    rcases hret with h | h | ⟨_, h⟩
    · exact Or.inr h
    · exact Or.inl h
    · exact absurd rfl h
  have hne0 : (parse_cmd_line argc argv0 opts [] { adds := 0, subs := 0 }
      { list_capacity := 0, filenames := [] }).ret ≠ 0 := by
    rcases hret2 with h | h <;> rw [h] <;> decide
  have hmain := main_of_parse_failure argc argv0 opts [] o st_mode0 hne0
  refine ⟨hret2, by rw [hmain], ?_, ?_, ?_⟩
  · rw [hmain]
    simp only
    rw [stat_calls_append, hstat]
    rfl
  · rw [hmain]
    simp only
    rw [chmod_calls_append, hchmod]
    rfl
  · intro hargc hrec hval
    have hp := parse_cmd_line_valid argc argv0 opts [] { adds := 0, subs := 0 }
      { list_capacity := 0, filenames := [] } hargc hrec hval
    simp only [Nat.zero_or, filelist.list_size, List.length_nil, Nat.add_zero] at hp
    constructor
    · intro hz
      rw [hp]
      simp only
      rw [spec_validate_no_files _ hz]
      exact ⟨rfl, rfl⟩
    · intro hne
      rw [hp]
      simp only
      rw [spec_validate_fst_eq_three]
      obtain ⟨i, hi⟩ := Nat.ne_zero_implies_bit_true hne
      refine ⟨i, ?_, hi⟩
      by_contra hge
      rw [Nat.testBit_and,
        testBit_of_lt_two_pow (requested_adds_lt opts) (Nat.le_of_not_lt hge)] at hi
      simp at hi

theorem C8_no_files_witness :
    (4 ≤ 5)
    ∧ (∀ f ∈ [('u', "r"), ('G', "w")], recognised f)
    ∧ (∀ f ∈ [('u', "r"), ('G', "w")], valid_letters f.2)
    ∧ spec_requested_adds [('u', "r"), ('G', "w")] &&& spec_requested_subs [('u', "r"), ('G', "w")] = 0
    ∧ (parse_cmd_line 5 "mychmod" [('u', "r"), ('G', "w")] [] { adds := 0, subs := 0 }
        { list_capacity := 0, filenames := [] }).ret = 1
    ∧ (parse_cmd_line 5 "mychmod" [('u', "r"), ('G', "w")] [] { adds := 0, subs := 0 }
        { list_capacity := 0, filenames := [] }).log = [Event.err "Error: No files given\n"] := by
  have h := (C8_no_files 5 "mychmod" [('u', "r"), ('G', "w")] sample_oracle 0).2.2.2.2
    (by decide) (by decide) (by decide)
  exact ⟨by decide, by decide, by decide, by decide, (h.1 (by decide)).1, (h.1 (by decide)).2⟩

/-- C8 as stated fails: for `-u r -U r` all arguments are flags and the file
list is empty after parsing, yet the USER conflict test is evaluated first and
the result is the conflict code 3, with no `No files given` diagnostic. -/
theorem C8_counterexample :
    (parse_cmd_line 5 "mychmod" [('u', "r"), ('U', "r")] [] { adds := 0, subs := 0 }
        { list_capacity := 0, filenames := [] }).files.filenames = []
    ∧ (parse_cmd_line 5 "mychmod" [('u', "r"), ('U', "r")] [] { adds := 0, subs := 0 }
        { list_capacity := 0, filenames := [] }).ret = 3
    ∧ (parse_cmd_line 5 "mychmod" [('u', "r"), ('U', "r")] [] { adds := 0, subs := 0 }
        { list_capacity := 0, filenames := [] }).log
        = [Event.err "Error: Conflicting USER permission options\n"]
    ∧ (main 5 "mychmod" [('u', "r"), ('U', "r")] [] sample_oracle 0).1 = 3 :=
  ⟨by decide, by decide, by decide, by decide⟩

/-! ## Applying the change-set to the file list -/

theorem filterMap_cons_toList {α β : Type} (f : α → Option β) (a : α) (l : List α) :
    (a :: l).filterMap f = (f a).toList ++ l.filterMap f := by
  cases h : f a <;> simp [List.filterMap_cons, h]

/-- One iteration under an oracle whose failures are all classified: one
`stat`, the expected `chmod` if any, the expected diagnostic if any. -/
theorem process_file_classified (o : Oracle) (perms : permset) (filei : Nat) (path : String)
    (s : ApplyState)
    (hstat : ∀ i p, (∃ m, o.stat i p = StatResult.ok m) ∨ o.stat i p = StatResult.fail EACCES
      ∨ o.stat i p = StatResult.fail ENOENT)
    (hchmod : ∀ i p m, o.chmod i p m = ChmodResult.ok ∨ o.chmod i p m = ChmodResult.fail EPERM
      ∨ o.chmod i p m = ChmodResult.fail ENOENT)
    (hmode : ∀ i p m, o.stat i p = StatResult.ok m → m < 2 ^ 32)
    (hadds : perms.adds < 2 ^ 32) :
    stat_calls (process_file o perms filei path s).log = stat_calls s.log ++ [path]
    ∧ chmod_calls (process_file o perms filei path s).log
        = chmod_calls s.log ++ (spec_chmod o perms (filei, path)).toList
    ∧ diagnostics (process_file o perms filei path s).log
        = diagnostics s.log ++ (spec_diagnostic o perms (filei, path)).toList := by
  rcases hstat filei path with ⟨m, hm⟩ | he | he
  · have hnm := new_mode_eq_and_bnot32 m perms (hmode filei path m hm) hadds
    rcases hchmod filei path (new_mode m perms) with hc | hc | hc
    · have hc2 := hc
      rw [hnm] at hc2
      simp [process_file, apply_new_mode, spec_chmod, spec_diagnostic, hm, hc, hc2,
        stat_calls, chmod_calls, diagnostics, List.filterMap_append, hnm]
    · have hc2 := hc
      rw [hnm] at hc2
      simp [process_file, apply_new_mode, spec_chmod, spec_diagnostic, hm, hc, hc2,
        stat_calls, chmod_calls, diagnostics, List.filterMap_append, hnm]
    · have hc2 := hc
      rw [hnm] at hc2
      have hne : ENOENT ≠ EPERM := by decide
      simp [process_file, apply_new_mode, spec_chmod, spec_diagnostic, hm, hc, hc2,
        stat_calls, chmod_calls, diagnostics, List.filterMap_append, hnm, hne]
  · simp [process_file, spec_chmod, spec_diagnostic, he,
      stat_calls, chmod_calls, diagnostics, List.filterMap_append]
  · have hne : ENOENT ≠ EACCES := by decide
    simp [process_file, spec_chmod, spec_diagnostic, he,
      stat_calls, chmod_calls, diagnostics, List.filterMap_append, hne]

theorem change_permissions_loop_classified (o : Oracle) (perms : permset)
    (hstat : ∀ i p, (∃ m, o.stat i p = StatResult.ok m) ∨ o.stat i p = StatResult.fail EACCES
      ∨ o.stat i p = StatResult.fail ENOENT)
    (hchmod : ∀ i p m, o.chmod i p m = ChmodResult.ok ∨ o.chmod i p m = ChmodResult.fail EPERM
      ∨ o.chmod i p m = ChmodResult.fail ENOENT)
    (hmode : ∀ i p m, o.stat i p = StatResult.ok m → m < 2 ^ 32)
    (hadds : perms.adds < 2 ^ 32) (names : List String) :
    ∀ (k : Nat) (s : ApplyState),
      stat_calls (change_permissions_loop o perms names k s).log = stat_calls s.log ++ names
      ∧ chmod_calls (change_permissions_loop o perms names k s).log
          = chmod_calls s.log ++ (names.enumFrom k).filterMap (spec_chmod o perms)
      ∧ diagnostics (change_permissions_loop o perms names k s).log
          = diagnostics s.log ++ (names.enumFrom k).filterMap (spec_diagnostic o perms) := by
  induction names with
  | nil => intro k s; simp [change_permissions_loop]
  | cons p more ih =>
    intro k s
    obtain ⟨h1, h2, h3⟩ := process_file_classified o perms k p s hstat hchmod hmode hadds
    obtain ⟨i1, i2, i3⟩ := ih (k + 1) (process_file o perms k p s)
    simp only [change_permissions_loop, List.enumFrom_cons, filterMap_cons_toList]
    rw [i1, i2, i3, h1, h2, h3]
    simp

/-- C9: `change_permissions` handles every file of the list exactly once, in
list order, whatever happened to earlier files.  For an oracle in which each
`stat` succeeds or fails with `EACCES` or `ENOENT` and each `chmod` succeeds or
fails with `EPERM` or `ENOENT` (modes being 32-bit values): the `stat` calls
are exactly the file names in order; the `chmod` calls are, in order, one call
with mode `(m | adds) & ~subs` for each file whose `stat` gave mode `m`, and
none for the others; and the diagnostics are, in order, exactly one line for
each file whose `stat` or `chmod` failed. -/
theorem C9_every_file_processed (o : Oracle) (files : filelist) (perms : permset)
    (st_mode0 : Nat)
    (hstat : ∀ i p, (∃ m, o.stat i p = StatResult.ok m) ∨ o.stat i p = StatResult.fail EACCES
      ∨ o.stat i p = StatResult.fail ENOENT)
    (hchmod : ∀ i p m, o.chmod i p m = ChmodResult.ok ∨ o.chmod i p m = ChmodResult.fail EPERM
      ∨ o.chmod i p m = ChmodResult.fail ENOENT)
    (hmode : ∀ i p m, o.stat i p = StatResult.ok m → m < 2 ^ 32)
    (hadds : perms.adds < 2 ^ 32) :
    stat_calls (change_permissions o files perms st_mode0).log = files.filenames
    ∧ chmod_calls (change_permissions o files perms st_mode0).log
        = files.filenames.enum.filterMap (spec_chmod o perms)
    ∧ diagnostics (change_permissions o files perms st_mode0).log
        = files.filenames.enum.filterMap (spec_diagnostic o perms) := by
  have h := change_permissions_loop_classified o perms hstat hchmod hmode hadds files.filenames 0
    { ret := 0, st_mode := st_mode0, log := [] }
  simpa [change_permissions, stat_calls, chmod_calls, diagnostics, List.enum] using h

theorem C9_every_file_processed_witness :
    (∀ i p, (∃ m, sample_oracle.stat i p = StatResult.ok m)
      ∨ sample_oracle.stat i p = StatResult.fail EACCES
      ∨ sample_oracle.stat i p = StatResult.fail ENOENT)
    ∧ stat_calls (change_permissions sample_oracle
        { list_capacity := 100, filenames := ["a.txt", "missing", "denied"] }
        { adds := 0o700, subs := 0o020 } 0).log = ["a.txt", "missing", "denied"]
    ∧ chmod_calls (change_permissions sample_oracle
        { list_capacity := 100, filenames := ["a.txt", "missing", "denied"] }
        { adds := 0o700, subs := 0o020 } 0).log = [("a.txt", 0o100744)]
    ∧ diagnostics (change_permissions sample_oracle
        { list_capacity := 100, filenames := ["a.txt", "missing", "denied"] }
        { adds := 0o700, subs := 0o020 } 0).log
        = ["Error: missing does not exist\n", "Error: Access denied to denied\n"] := by
  have hs : ∀ i p, (∃ m, sample_oracle.stat i p = StatResult.ok m)
      ∨ sample_oracle.stat i p = StatResult.fail EACCES
      ∨ sample_oracle.stat i p = StatResult.fail ENOENT := by
    intro i p
    simp only [sample_oracle]
    split_ifs <;> simp
  have hm : ∀ i p m, sample_oracle.stat i p = StatResult.ok m → m < 2 ^ 32 := by
    intro i p m
    simp only [sample_oracle]
    split_ifs <;> simp
    rintro rfl
    decide
  have h := C9_every_file_processed sample_oracle
    { list_capacity := 100, filenames := ["a.txt", "missing", "denied"] }
    { adds := 0o700, subs := 0o020 } 0 hs (fun _ _ _ => Or.inl rfl) hm (by decide)
  exact ⟨hs, h.1, h.2.1.trans (by decide), h.2.2.trans (by decide)⟩

/-- C10 does not hold of the code: with the single file `f` on a read-only file
system the `stat` succeeds and the `chmod` fails with `EROFS`; the `default`
case prints a diagnostic but leaves `ret` alone, so `change_permissions`
returns 0 although the requested change was not applied. -/
theorem C10_zero_despite_failed_chmod :
    readonly_oracle.stat 0 "f" = StatResult.ok 0o100644
    ∧ readonly_oracle.chmod 0 "f" 0o100744 = ChmodResult.fail EROFS
    ∧ (change_permissions readonly_oracle { list_capacity := 100, filenames := ["f"] }
        { adds := 0o700, subs := 0 } 0).log
        = [Event.stat "f", Event.chmod "f" 0o100744,
           Event.err "Error: Unexpected error while trying to change f - Read-only file system\n"]
    ∧ (change_permissions readonly_oracle { list_capacity := 100, filenames := ["f"] }
        { adds := 0o700, subs := 0 } 0).ret = 0 :=
  ⟨rfl, rfl, by decide, by decide⟩

/-! ## The aggregate result -/

theorem spec_chmod_code_cases (r : ChmodResult) :
    spec_chmod_code r = none ∨ spec_chmod_code r = some 2 ∨ spec_chmod_code r = some 4 := by
  unfold spec_chmod_code
  cases r with
  | ok => exact Or.inl rfl
  | fail errno =>
    simp only
    split_ifs
    · exact Or.inr (Or.inl rfl)
    · exact Or.inr (Or.inr rfl)
    · exact Or.inl rfl

theorem spec_file_code_cases (o : Oracle) (perms : permset) (ip : Nat × String) (st : Nat) :
    spec_file_code o perms ip st = none ∨ spec_file_code o perms ip st = some 2
      ∨ spec_file_code o perms ip st = some 4 := by
  unfold spec_file_code
  cases o.stat ip.1 ip.2 with
  | ok m => exact spec_chmod_code_cases _
  | fail errno =>
    simp only
    split_ifs
    · exact Or.inr (Or.inl rfl)
    · exact Or.inr (Or.inr rfl)
    · exact spec_chmod_code_cases _

theorem apply_new_mode_ret (o : Oracle) (perms : permset) (filei : Nat) (path : String)
    (s : ApplyState) :
    (apply_new_mode o perms filei path s).ret
      = (spec_chmod_code (o.chmod filei path (new_mode s.st_mode perms))).getD s.ret := by
  simp only [apply_new_mode, spec_chmod_code]
  cases o.chmod filei path (new_mode s.st_mode perms) with
  | ok => rfl
  | fail errno =>
    simp only
    split_ifs <;> rfl

theorem apply_new_mode_st_mode (o : Oracle) (perms : permset) (filei : Nat) (path : String)
    (s : ApplyState) :
    (apply_new_mode o perms filei path s).st_mode = s.st_mode := by
  simp only [apply_new_mode]
  cases o.chmod filei path (new_mode s.st_mode perms) with
  | ok => rfl
  | fail errno =>
    simp only
    split_ifs <;> rfl

theorem process_file_ret (o : Oracle) (perms : permset) (filei : Nat) (path : String)
    (s : ApplyState) :
    (process_file o perms filei path s).ret
      = (spec_file_code o perms (filei, path) s.st_mode).getD s.ret := by
  simp only [process_file, spec_file_code]
  cases o.stat filei path with
  | ok m => simp only [apply_new_mode_ret]
  | fail errno =>
    simp only
    split_ifs
    · rfl
    · rfl
    · simp only [apply_new_mode_ret]

theorem process_file_st_mode (o : Oracle) (perms : permset) (filei : Nat) (path : String)
    (s : ApplyState) :
    (process_file o perms filei path s).st_mode = spec_statbuf o (filei, path) s.st_mode := by
  simp only [process_file, spec_statbuf]
  cases o.stat filei path with
  | ok m => simp only [apply_new_mode_st_mode]
  | fail errno =>
    simp only
    split_ifs
    · rfl
    · rfl
    · simp only [apply_new_mode_st_mode]

theorem getLast?_getD_cons (v r : Nat) (l : List Nat) :
    ((v :: l).getLast?).getD r = (l.getLast?).getD v := by
  rw [List.getLast?_cons]
  rfl

theorem change_permissions_loop_ret (o : Oracle) (perms : permset) (names : List String) :
    ∀ (k : Nat) (s : ApplyState),
      (change_permissions_loop o perms names k s).ret
        = (((spec_codes o perms names k s.st_mode).filterMap id).getLast?).getD s.ret := by
  induction names with
  | nil => intro k s; rfl
  | cons p more ih =>
    intro k s
    simp only [change_permissions_loop, spec_codes]
    rw [ih, process_file_ret, process_file_st_mode]
    cases spec_file_code o perms (k, p) s.st_mode with
    | none => rfl
    | some v =>
      simp only [List.filterMap_cons, id, Option.getD_some]
      rw [getLast?_getD_cons]

theorem spec_codes_mem (o : Oracle) (perms : permset) (names : List String) :
    ∀ (k st : Nat) (c : Option Nat), c ∈ spec_codes o perms names k st →
      ∃ ip ∈ names.enumFrom k, ∃ st2, c = spec_file_code o perms ip st2 := by
  induction names with
  | nil => intro k st c h; simp [spec_codes] at h
  | cons p more ih =>
    intro k st c h
    simp only [spec_codes, List.mem_cons] at h
    rcases h with rfl | h
    · exact ⟨(k, p), by simp [List.enumFrom_cons], st, rfl⟩
    · obtain ⟨ip, hip, st2, hc⟩ := ih _ _ _ h
      exact ⟨ip, by simp [List.enumFrom_cons, hip], st2, hc⟩

theorem spec_last_code_mem (codes : List (Option Nat)) (v : Nat) (hv : v ≠ 0)
    (h : spec_last_code codes = v) : some v ∈ codes := by
  unfold spec_last_code at h
  cases hl : (codes.filterMap id).getLast? with
  | none =>
    rw [hl] at h
    exact absurd h.symm hv
  | some w =>
    rw [hl] at h
    simp only [Option.getD_some] at h
    subst h
    have hmem := List.mem_of_getLast?_eq_some hl
    rw [List.mem_filterMap] at hmem
    obtain ⟨c, hc, hcw⟩ := hmem
    simp only [id] at hcw
    rw [← hcw]
    exact hc

theorem spec_chmod_code_two (r : ChmodResult) (h : spec_chmod_code r = some 2) :
    r = ChmodResult.fail EPERM := by
  unfold spec_chmod_code at h
  cases r with
  | ok => simp at h
  | fail errno =>
    simp only at h
    split_ifs at h with h1 h2
    · rw [h1]
    · simp at h

theorem spec_chmod_code_four (r : ChmodResult) (h : spec_chmod_code r = some 4) :
    r = ChmodResult.fail ENOENT := by
  unfold spec_chmod_code at h
  cases r with
  | ok => simp at h
  | fail errno =>
    simp only at h
    split_ifs at h with h1 h2
    · simp at h
    · rw [h2]

theorem spec_file_code_two (o : Oracle) (perms : permset) (ip : Nat × String) (st : Nat)
    (h : spec_file_code o perms ip st = some 2) :
    o.stat ip.1 ip.2 = StatResult.fail EACCES
      ∨ ∃ m, o.chmod ip.1 ip.2 m = ChmodResult.fail EPERM := by
  unfold spec_file_code at h
  cases hs : o.stat ip.1 ip.2 with
  | ok m =>
    rw [hs] at h
    exact Or.inr ⟨_, spec_chmod_code_two _ h⟩
  | fail errno =>
    rw [hs] at h
    simp only at h
    split_ifs at h with h1 h2
    · left; rw [h1]
    · simp at h
    · exact Or.inr ⟨_, spec_chmod_code_two _ h⟩

theorem spec_file_code_four (o : Oracle) (perms : permset) (ip : Nat × String) (st : Nat)
    (h : spec_file_code o perms ip st = some 4) :
    o.stat ip.1 ip.2 = StatResult.fail ENOENT
      ∨ ∃ m, o.chmod ip.1 ip.2 m = ChmodResult.fail ENOENT := by
  unfold spec_file_code at h
  cases hs : o.stat ip.1 ip.2 with
  | ok m =>
    rw [hs] at h
    exact Or.inr ⟨_, spec_chmod_code_four _ h⟩
  | fail errno =>
    rw [hs] at h
    simp only at h
    split_ifs at h with h1 h2
    · simp at h
    · left; rw [h2]
    · exact Or.inr ⟨_, spec_chmod_code_four _ h⟩

theorem change_permissions_ret (o : Oracle) (files : filelist) (perms : permset)
    (st_mode0 : Nat) :
    (change_permissions o files perms st_mode0).ret
      = spec_last_code (spec_codes o perms files.filenames 0 st_mode0) := by
  rw [change_permissions, change_permissions_loop_ret]
  rfl

theorem spec_last_code_cases (o : Oracle) (perms : permset) (names : List String) (k st : Nat) :
    spec_last_code (spec_codes o perms names k st) = 0
      ∨ spec_last_code (spec_codes o perms names k st) = 2
      ∨ spec_last_code (spec_codes o perms names k st) = 4 := by
  by_cases h0 : spec_last_code (spec_codes o perms names k st) = 0
  · exact Or.inl h0
  · have hmem := spec_last_code_mem _ _ h0 rfl
    obtain ⟨ip, _, st2, hc⟩ := spec_codes_mem o perms names k st _ hmem
    rcases spec_file_code_cases o perms ip st2 with h | h | h
    · rw [h] at hc; simp at hc
    · rw [h] at hc
      simp only [Option.some.injEq] at hc
      exact Or.inr (Or.inl hc)
    · rw [h] at hc
      simp only [Option.some.injEq] at hc
      exact Or.inr (Or.inr hc)

/-- C11: the result of `change_permissions` is always 0, 2 or 4.  It is the
code of the last classified failure in iteration order (2 for a `stat` failing
with `EACCES` or a `chmod` failing with `EPERM`, 4 for a `stat` or `chmod`
failing with `ENOENT`), and 0 when no file has one; a file whose `stat` and
`chmod` both succeed leaves it as it was.  So a result of 2 means some file had
an access or permission error and a result of 4 means some file did not
exist; for `[denied, missing]` the result is 4 and for `[missing, denied]` it
is 2. -/
theorem C11_aggregate_result (o : Oracle) (files : filelist) (perms : permset)
    (st_mode0 : Nat) :
    ((change_permissions o files perms st_mode0).ret = 0
      ∨ (change_permissions o files perms st_mode0).ret = 2
      ∨ (change_permissions o files perms st_mode0).ret = 4)
    ∧ (change_permissions o files perms st_mode0).ret
        = spec_last_code (spec_codes o perms files.filenames 0 st_mode0)
    ∧ (∀ (filei : Nat) (path : String) (s : ApplyState) (m : Nat),
        o.stat filei path = StatResult.ok m →
        o.chmod filei path (new_mode m perms) = ChmodResult.ok →
        (process_file o perms filei path s).ret = s.ret)
    ∧ ((change_permissions o files perms st_mode0).ret = 2 →
        ∃ ip ∈ files.filenames.enum, o.stat ip.1 ip.2 = StatResult.fail EACCES
          ∨ ∃ m, o.chmod ip.1 ip.2 m = ChmodResult.fail EPERM)
    ∧ ((change_permissions o files perms st_mode0).ret = 4 →
        ∃ ip ∈ files.filenames.enum, o.stat ip.1 ip.2 = StatResult.fail ENOENT
          ∨ ∃ m, o.chmod ip.1 ip.2 m = ChmodResult.fail ENOENT)
    ∧ (change_permissions sample_oracle { list_capacity := 100, filenames := ["denied", "missing"] }
        perms st_mode0).ret = 4
    ∧ (change_permissions sample_oracle { list_capacity := 100, filenames := ["missing", "denied"] }
        perms st_mode0).ret = 2 := by
  have hret := change_permissions_ret o files perms st_mode0
  refine ⟨?_, hret, ?_, ?_, ?_, ?_, ?_⟩
  · rw [hret]
    exact spec_last_code_cases o perms files.filenames 0 st_mode0
  · intro filei path s m hs hc
    rw [process_file_ret]
    simp [spec_file_code, hs, hc, spec_chmod_code]
  · intro h2
    rw [hret] at h2
    have hmem := spec_last_code_mem _ 2 (by decide) h2
    obtain ⟨ip, hip, st2, hc⟩ := spec_codes_mem o perms files.filenames 0 st_mode0 _ hmem
    exact ⟨ip, hip, spec_file_code_two o perms ip st2 hc.symm⟩
  · intro h4
    rw [hret] at h4
    have hmem := spec_last_code_mem _ 4 (by decide) h4
    obtain ⟨ip, hip, st2, hc⟩ := spec_codes_mem o perms files.filenames 0 st_mode0 _ hmem
    exact ⟨ip, hip, spec_file_code_four o perms ip st2 hc.symm⟩
  · rfl
  · rfl

theorem C11_aggregate_result_witness :
    (change_permissions sample_oracle
        { list_capacity := 100, filenames := ["denied", "a.txt"] }
        { adds := 0o700, subs := 0 } 0).ret = 2
    ∧ ∃ ip ∈ ["denied", "a.txt"].enum, sample_oracle.stat ip.1 ip.2 = StatResult.fail EACCES
        ∨ ∃ m, sample_oracle.chmod ip.1 ip.2 m = ChmodResult.fail EPERM := by
  have h := C11_aggregate_result sample_oracle
    { list_capacity := 100, filenames := ["denied", "a.txt"] } { adds := 0o700, subs := 0 } 0
  have h2 : (change_permissions sample_oracle
        { list_capacity := 100, filenames := ["denied", "a.txt"] }
        { adds := 0o700, subs := 0 } 0).ret = 2 := by decide
  exact ⟨h2, h.2.2.2.1 h2⟩

/-! ## Invalid letters -/

theorem add_change_to_set_loop_invalid (l : List Char) :
    ∀ acc : Nat, (∃ c ∈ l, c ≠ 'r' ∧ c ≠ 'w' ∧ c ≠ 'x') →
      ∃ c, spec_first_invalid l = some c ∧ add_change_to_set_loop l acc = Except.error c := by
  induction l with
  | nil => intro acc h; simp at h
  | cons d ds ih =>
    intro acc h
    by_cases hr : d = 'r'
    · subst hr
      obtain ⟨c, hc, hne⟩ := h
      have hmem : c ∈ ds := by
        rcases List.mem_cons.1 hc with rfl | hm
        · exact absurd rfl hne.1
        · exact hm
      obtain ⟨c2, h1, h2⟩ := ih (acc ||| 0x04) ⟨c, hmem, hne⟩
      exact ⟨c2, by simpa [spec_first_invalid] using h1, by rw [add_change_to_set_loop_r, h2]⟩
    · by_cases hw : d = 'w'
      · subst hw
        obtain ⟨c, hc, hne⟩ := h
        have hmem : c ∈ ds := by
          rcases List.mem_cons.1 hc with rfl | hm
          · exact absurd rfl hne.2.1
          · exact hm
        obtain ⟨c2, h1, h2⟩ := ih (acc ||| 0x02) ⟨c, hmem, hne⟩
        exact ⟨c2, by simpa [spec_first_invalid] using h1, by rw [add_change_to_set_loop_w, h2]⟩
      · by_cases hx : d = 'x'
        · subst hx
          obtain ⟨c, hc, hne⟩ := h
          have hmem : c ∈ ds := by
            rcases List.mem_cons.1 hc with rfl | hm
            · exact absurd rfl hne.2.2
            · exact hm
          obtain ⟨c2, h1, h2⟩ := ih (acc ||| 0x01) ⟨c, hmem, hne⟩
          exact ⟨c2, by simpa [spec_first_invalid] using h1, by rw [add_change_to_set_loop_x, h2]⟩
        · refine ⟨d, ?_, ?_⟩
          · simp [spec_first_invalid, List.find?_cons, hr, hw, hx]
          · simp [add_change_to_set_loop, hr, hw, hx]

theorem add_change_to_set_invalid (set : Nat) (arg : String) (modeset : Nat)
    (hbad : ∃ c ∈ arg.data, c ≠ 'r' ∧ c ≠ 'w' ∧ c ≠ 'x') :
    ∃ c, spec_first_invalid arg.data = some c
      ∧ add_change_to_set set arg modeset
          = { ret := 1, set := set,
              log := [Event.err ("Error: Invalid permission option: "
                        ++ String.singleton c ++ "\n")] } := by
  obtain ⟨c, h1, h2⟩ := add_change_to_set_loop_invalid arg.data 0 hbad
  refine ⟨c, h1, ?_⟩
  unfold add_change_to_set
  rw [h2]

theorem parse_switches_cons (argv0 : String) (f : Char × String) (more : List (Char × String))
    (perms : permset) :
    (parse_switches argv0 (f :: more) perms).1 = some 1
      ∨ ∃ perms2, parse_switches argv0 (f :: more) perms = parse_switches argv0 more perms2 := by
  obtain ⟨c, optarg⟩ := f
  simp only [parse_switches]
  split_ifs
  all_goals first
    | exact Or.inl rfl
    | exact Or.inr ⟨_, rfl⟩

theorem parse_switches_head_invalid (argv0 : String) (flag : Char) (arg : String)
    (more : List (Char × String)) (perms : permset) (hrec : recognised (flag, arg))
    (c : Char)
    (hbad : ∀ set modeset, add_change_to_set set arg modeset
      = { ret := 1, set := set,
          log := [Event.err ("Error: Invalid permission option: "
                    ++ String.singleton c ++ "\n")] }) :
    parse_switches argv0 ((flag, arg) :: more) perms
      = (some 1, perms, [Event.err ("Error: Invalid permission option: "
                    ++ String.singleton c ++ "\n")]) := by
  simp only [recognised] at hrec
  rcases hrec with rfl | rfl | rfl | rfl | rfl | rfl <;>
    simp [parse_switches, hbad]

theorem parse_switches_invalid_mem (argv0 : String) (opts : List (Char × String)) :
    ∀ perms : permset,
      (∃ f ∈ opts, recognised f ∧ ∃ c ∈ f.2.data, c ≠ 'r' ∧ c ≠ 'w' ∧ c ≠ 'x') →
      (parse_switches argv0 opts perms).1 = some 1 := by
  induction opts with
  | nil => intro perms h; simp at h
  | cons g more ih =>
    intro perms h
    obtain ⟨f, hf, hrec, hbad⟩ := h
    rcases List.mem_cons.1 hf with rfl | hmem
    · obtain ⟨c, hfirst, _⟩ := add_change_to_set_invalid 0 f.2 0 hbad
      have hall : ∀ set modeset, add_change_to_set set f.2 modeset
          = { ret := 1, set := set,
              log := [Event.err ("Error: Invalid permission option: "
                        ++ String.singleton c ++ "\n")] } := by
        intro set modeset
        obtain ⟨c2, h1, h2⟩ := add_change_to_set_invalid set f.2 modeset hbad
        rw [hfirst] at h1
        simp only [Option.some.injEq] at h1
        rw [h2, h1]
      rw [show f = (f.1, f.2) from rfl, parse_switches_head_invalid argv0 f.1 f.2 more perms hrec c hall]
    · rcases parse_switches_cons argv0 g more perms with h1 | ⟨perms2, h2⟩
      · exact h1
      · rw [h2]
        exact ih perms2 ⟨f, hmem, hrec, hbad⟩

theorem parse_switches_append_valid (argv0 : String) (pre : List (Char × String))
    (tail : List (Char × String)) :
    ∀ perms : permset, (∀ f ∈ pre, recognised f) → (∀ f ∈ pre, valid_letters f.2) →
      parse_switches argv0 (pre ++ tail) perms
        = parse_switches argv0 tail
            { adds := perms.adds ||| spec_requested_adds pre,
              subs := perms.subs ||| spec_requested_subs pre } := by
  induction pre with
  | nil => intro perms _ _; simp [spec_requested_adds, spec_requested_subs]
  | cons f more ih =>
    intro perms hrec hval
    obtain ⟨c, optarg⟩ := f
    have hrec2 : ∀ f ∈ more, recognised f := fun f hf => hrec f (List.mem_cons_of_mem _ hf)
    have hval2 : ∀ f ∈ more, valid_letters f.2 := fun f hf => hval f (List.mem_cons_of_mem _ hf)
    have harg : valid_letters optarg := hval (c, optarg) (List.mem_cons_self _ _)
    have hc : recognised (c, optarg) := hrec (c, optarg) (List.mem_cons_self _ _)
    simp only [recognised] at hc
    rcases hc with rfl | rfl | rfl | rfl | rfl | rfl <;>
      simp [parse_switches, add_change_to_set_valid _ _ _ harg, ih _ hrec2 hval2,
        spec_requested_adds, spec_requested_subs, spec_add_request, spec_sub_request,
        spec_class_shift, USR, GRP, OTH, Nat.or_assoc]

theorem parse_cmd_line_of_loop_return (argc : Nat) (argv0 : String)
    (opts : List (Char × String)) (rest : List String) (perms : permset) (files : filelist)
    (h : (parse_switches argv0 opts perms).1 = some 1) :
    (parse_cmd_line argc argv0 opts rest perms files).ret = 1
      ∧ (parse_cmd_line argc argv0 opts rest perms files).files = files := by
  unfold parse_cmd_line
  by_cases hargc : argc < 4
  · rw [if_pos hargc]
    exact ⟨rfl, rfl⟩
  · rw [if_neg hargc]
    rcases hp : parse_switches argv0 opts perms with ⟨r, perms1, log1⟩
    rw [hp] at h
    simp only at h
    subst h
    exact ⟨rfl, rfl⟩

/-- C12: for a string with at least one character other than `r`, `w`, `x`,
`add_change_to_set` returns 1, its diagnostic names the first such character,
and `*set` is exactly what it was before the call.  In `parse_cmd_line` a
recognised flag with such a value makes the parse return 1 with the file list
untouched; when the flags before it are recognised and valid the parse stops
at that flag with the invalid-letter diagnostic alone, the change-set holding
only what the earlier flags put in, before any conflict or file-list check. -/
theorem C12_invalid_letter (set : Nat) (s : String) (modeset : Nat)
    (hbad : ∃ c ∈ s.data, c ≠ 'r' ∧ c ≠ 'w' ∧ c ≠ 'x') :
    ∃ c, spec_first_invalid s.data = some c
      ∧ add_change_to_set set s modeset
          = { ret := 1, set := set,
              log := [Event.err ("Error: Invalid permission option: "
                        ++ String.singleton c ++ "\n")] }
      ∧ (∀ (argc : Nat) (argv0 : String) (opts : List (Char × String)) (rest : List String)
          (perms : permset) (files : filelist) (flag : Char),
          recognised (flag, s) → (flag, s) ∈ opts →
          (parse_cmd_line argc argv0 opts rest perms files).ret = 1
            ∧ (parse_cmd_line argc argv0 opts rest perms files).files = files)
      ∧ (∀ (argc : Nat) (argv0 : String) (pre post : List (Char × String))
          (rest : List String) (perms : permset) (files : filelist) (flag : Char),
          4 ≤ argc → recognised (flag, s) →
          (∀ f ∈ pre, recognised f) → (∀ f ∈ pre, valid_letters f.2) →
          parse_cmd_line argc argv0 (pre ++ (flag, s) :: post) rest perms files
            = { ret := 1,
                perms := { adds := perms.adds ||| spec_requested_adds pre,
                           subs := perms.subs ||| spec_requested_subs pre },
                files := files,
                log := [Event.err ("Error: Invalid permission option: "
                          ++ String.singleton c ++ "\n")] }) := by
  obtain ⟨c, hfirst, hset⟩ := add_change_to_set_invalid set s modeset hbad
  have hall : ∀ set modeset, add_change_to_set set s modeset
      = { ret := 1, set := set,
          log := [Event.err ("Error: Invalid permission option: "
                    ++ String.singleton c ++ "\n")] } := by
    intro set2 modeset2
    obtain ⟨c2, h1, h2⟩ := add_change_to_set_invalid set2 s modeset2 hbad
    rw [hfirst] at h1
    simp only [Option.some.injEq] at h1
    rw [h2, h1]
  refine ⟨c, hfirst, hset, ?_, ?_⟩
  · intro argc argv0 opts rest perms files flag hrec hmem
    exact parse_cmd_line_of_loop_return argc argv0 opts rest perms files
      (parse_switches_invalid_mem argv0 opts perms ⟨(flag, s), hmem, hrec, hbad⟩)
  · intro argc argv0 pre post rest perms files flag hargc hrec hprec hpval
    have hsw := parse_switches_append_valid argv0 pre ((flag, s) :: post) perms hprec hpval
    rw [parse_switches_head_invalid argv0 flag s post _ hrec c hall] at hsw
    unfold parse_cmd_line
    rw [if_neg (by omega), hsw]

theorem C12_invalid_letter_witness :
    (∃ c ∈ "rwz".data, c ≠ 'r' ∧ c ≠ 'w' ∧ c ≠ 'x')
    ∧ add_change_to_set 0o400 "rwz" GRP
        = { ret := 1, set := 0o400,
            log := [Event.err "Error: Invalid permission option: z\n"] } := by
  have hbad : ∃ c ∈ "rwz".data, c ≠ 'r' ∧ c ≠ 'w' ∧ c ≠ 'x' :=
    ⟨'z', by decide, by decide, by decide, by decide⟩
  obtain ⟨c, h1, h2, _⟩ := C12_invalid_letter 0o400 "rwz" GRP hbad
  have hc : c = 'z' := by
    have : spec_first_invalid "rwz".data = some 'z' := by decide
    rw [this] at h1
    exact (Option.some.inj h1).symm
  subst hc
  exact ⟨hbad, h2.trans (by decide)⟩

/-! ## Accumulation -/

theorem add_change_to_set_testBit_mono (set : Nat) (arg : String) (modeset : Nat) (i : Nat)
    (h : set.testBit i = true) : (add_change_to_set set arg modeset).set.testBit i = true := by
  unfold add_change_to_set
  cases add_change_to_set_loop arg.data 0 with
  | error c => exact h
  | ok v =>
    simp only [Nat.testBit_or, h, Bool.true_or]

/-- C13: successive `add_change_to_set` calls accumulate by bitwise OR.  For
valid letter strings `s1`, `s2` and classes `c1`, `c2`, applying `(s1, c1)`
then `(s2, c2)` to a mask `m` gives `m | bits(s1, c1) | bits(s2, c2)`, the
same as applying them in the other order; no call, successful or not, clears
a bit that was set; and `-u r` followed by `-u x` leaves 0500 in the add
mask. -/
theorem C13_accumulate (m : Nat) (s1 s2 : String) (c1 c2 : Nat)
    (h1 : valid_letters s1) (h2 : valid_letters s2) :
    (add_change_to_set (add_change_to_set m s1 c1).set s2 c2).set
        = m ||| (spec_letter_bits s1.data <<< spec_class_shift c1)
            ||| (spec_letter_bits s2.data <<< spec_class_shift c2)
    ∧ (add_change_to_set (add_change_to_set m s1 c1).set s2 c2).set
        = (add_change_to_set (add_change_to_set m s2 c2).set s1 c1).set
    ∧ (∀ i, m.testBit i = true →
        (add_change_to_set (add_change_to_set m s1 c1).set s2 c2).set.testBit i = true)
    ∧ (∀ (s : String) (c i : Nat), m.testBit i = true →
        (add_change_to_set m s c).set.testBit i = true)
    ∧ (add_change_to_set (add_change_to_set 0 "r" USR).set "x" USR).set = 0o500
    ∧ parse_switches "mychmod" [('u', "r"), ('u', "x")] { adds := 0, subs := 0 }
        = (none, { adds := 0o500, subs := 0 }, []) := by
  refine ⟨?_, ?_, ?_, ?_, by decide, by decide⟩
  · rw [add_change_to_set_valid _ _ _ h1, add_change_to_set_valid _ _ _ h2]
  · rw [add_change_to_set_valid _ _ _ h1, add_change_to_set_valid _ _ _ h2,
      add_change_to_set_valid _ _ _ h2, add_change_to_set_valid _ _ _ h1]
    simp only
    rw [Nat.or_assoc, Nat.or_assoc,
      Nat.or_comm (spec_letter_bits s1.data <<< spec_class_shift c1)]
  · intro i hi
    exact add_change_to_set_testBit_mono _ _ _ _ (add_change_to_set_testBit_mono _ _ _ _ hi)
  · intro s c i hi
    exact add_change_to_set_testBit_mono _ _ _ _ hi

theorem C13_accumulate_witness :
    valid_letters "rw" ∧ valid_letters "x"
    ∧ (add_change_to_set (add_change_to_set 0o004 "rw" GRP).set "x" OTH).set = 0o065
    ∧ (add_change_to_set (add_change_to_set 0o004 "x" OTH).set "rw" GRP).set = 0o065 := by
  have h := C13_accumulate 0o004 "rw" "x" GRP OTH (by decide) (by decide)
  refine ⟨by decide, by decide, ?_, ?_⟩
  · rw [h.1]; decide
  · rw [← h.2.1, h.1]; decide

/-! ## A `stat` that fails with an unclassified error -/

/-- C14 does not hold of the code: for the single file `big.iso` whose `stat`
fails with `EOVERFLOW`, the `default` case prints its diagnostic and, having
no `continue`, falls out of the `switch`; the body goes on to compute a mode
from whatever `statbuf` holds and issues `chmod` with it.  The result code
stays 0. -/
theorem C14_chmod_after_failed_stat :
    overflow_oracle.stat 0 "big.iso" = StatResult.fail EOVERFLOW
    ∧ (∀ (perms : permset) (st_mode0 : Nat),
        chmod_calls (change_permissions overflow_oracle
            { list_capacity := 100, filenames := ["big.iso"] } perms st_mode0).log
          = [("big.iso", new_mode st_mode0 perms)])
    ∧ (change_permissions overflow_oracle
          { list_capacity := 100, filenames := ["big.iso"] } { adds := 0o700, subs := 0 } 0o7777).log
        = [Event.stat "big.iso",
           Event.err ("Error: Unexpected error while trying to access big.iso - "
             ++ "Value too large for defined data type\n"),
           Event.chmod "big.iso" 0o7777]
    ∧ (change_permissions overflow_oracle
          { list_capacity := 100, filenames := ["big.iso"] } { adds := 0o700, subs := 0 } 0o7777).ret
        = 0 := by
  refine ⟨by decide, ?_, by decide, by decide⟩
  intro perms st_mode0
  rfl

/-! ## End-to-end scenario -/

theorem new_mode_and_0777 (m : Nat) (perms : permset) :
    new_mode m perms &&& 0o777 = new_mode (m &&& 0o777) perms &&& 0o777 := by
  apply Nat.eq_of_testBit_eq
  intro i
  simp only [Nat.testBit_and, testBit_new_mode]
  cases m.testBit i <;> cases perms.adds.testBit i <;> cases perms.subs.testBit i <;>
    cases (Nat.testBit 0o777 i) <;> rfl

/-- C15: for the command line `-u rwx -G w file.txt`, `file.txt` having
permission bits 0640 and `stat` and `chmod` succeeding, parsing succeeds with
`adds = 0700` and `subs = 0020`, the run consists of one `stat` and one
`chmod` of `file.txt`, the mode given to `chmod` has permission bits 0740, and
the result code is 0. -/
theorem C15_scenario (o : Oracle) (st_mode0 m : Nat)
    (hstat : o.stat 0 "file.txt" = StatResult.ok m)
    (hperm : m &&& 0o777 = 0o640)
    (hchmod : o.chmod 0 "file.txt" (new_mode m { adds := 0o700, subs := 0o020 })
      = ChmodResult.ok) :
    parse_cmd_line 6 "mychmod" [('u', "rwx"), ('G', "w")] ["file.txt"]
        { adds := 0, subs := 0 } { list_capacity := 0, filenames := [] }
      = { ret := 0, perms := { adds := 0o700, subs := 0o020 },
          files := { list_capacity := 100, filenames := ["file.txt"] }, log := [] }
    ∧ main 6 "mychmod" [('u', "rwx"), ('G', "w")] ["file.txt"] o st_mode0
      = (0, [Event.stat "file.txt",
             Event.chmod "file.txt" (new_mode m { adds := 0o700, subs := 0o020 })])
    ∧ new_mode m { adds := 0o700, subs := 0o020 } &&& 0o777 = 0o740 := by
  have hparse : parse_cmd_line 6 "mychmod" [('u', "rwx"), ('G', "w")] ["file.txt"]
        { adds := 0, subs := 0 } { list_capacity := 0, filenames := [] }
      = { ret := 0, perms := { adds := 0o700, subs := 0o020 },
          files := { list_capacity := 100, filenames := ["file.txt"] }, log := [] } := by
    decide
  refine ⟨hparse, ?_, ?_⟩
  · simp only [main, hparse]
    simp [change_permissions, change_permissions_loop, process_file, apply_new_mode, hstat,
      hchmod]
  · rw [new_mode_and_0777, hperm]
    decide

theorem C15_scenario_witness :
    scenario_oracle.stat 0 "file.txt" = StatResult.ok 0o100640
    ∧ (0o100640 : Nat) &&& 0o777 = 0o640
    ∧ scenario_oracle.chmod 0 "file.txt" (new_mode 0o100640 { adds := 0o700, subs := 0o020 })
        = ChmodResult.ok
    ∧ main 6 "mychmod" [('u', "rwx"), ('G', "w")] ["file.txt"] scenario_oracle 0
        = (0, [Event.stat "file.txt", Event.chmod "file.txt" 0o100740]) := by
  have h := C15_scenario scenario_oracle 0 0o100640 rfl (by decide) rfl
  exact ⟨rfl, by decide, rfl, h.2.1.trans (by decide)⟩

/-! ## The argument count -/

theorem invalid_argument_ne_insufficient (x : String) :
    "Error: Invalid Argument: " ++ x ++ "\n" ≠ "Error: Insufficient number of arguments\n" := by
  intro h
  have h2 := congrArg String.data h
  simp only [String.data_append] at h2
  have h3 := congrArg (fun l => l.get? 9) h2
  simp at h3

theorem invalid_option_ne_insufficient (x : String) :
    "Error: Invalid permission option: " ++ x ++ "\n"
      ≠ "Error: Insufficient number of arguments\n" := by
  intro h
  have h2 := congrArg String.data h
  simp only [String.data_append] at h2
  have h3 := congrArg (fun l => l.get? 9) h2
  simp at h3

theorem add_change_to_set_log_ne (set : Nat) (arg : String) (modeset : Nat) :
    Event.err "Error: Insufficient number of arguments\n"
      ∉ (add_change_to_set set arg modeset).log := by
  unfold add_change_to_set
  cases add_change_to_set_loop arg.data 0 with
  | error c =>
    simp only [List.mem_singleton, Event.err.injEq]
    exact fun h => invalid_option_ne_insufficient _ h.symm
  | ok v => simp

theorem parse_switches_log_ne (argv0 : String) (opts : List (Char × String)) :
    ∀ perms : permset, Event.err "Error: Insufficient number of arguments\n"
      ∉ (parse_switches argv0 opts perms).2.2 := by
  induction opts with
  | nil => intro perms; simp [parse_switches]
  | cons f more ih =>
    intro perms
    obtain ⟨c, optarg⟩ := f
    simp only [parse_switches]
    split_ifs
    all_goals first
      | exact ih _
      | exact add_change_to_set_log_ne _ _ _
      | (simp only [List.mem_singleton, Event.err.injEq]
         exact fun h => invalid_argument_ne_insufficient _ h.symm)

theorem spec_validate_log_ne (perms : permset) (n : Nat) :
    Event.err "Error: Insufficient number of arguments\n" ∉ (spec_validate perms n).2 := by
  unfold spec_validate
  split_ifs <;> decide

/-- C16: with fewer than 3 tokens after the program name (`argc < 4`)
`parse_cmd_line` returns 1 before any flag is parsed: the change-set and the
file list are what they were, the only output is the diagnostic for too few
arguments, and `main` returns 1 without any `stat` or `chmod`.  With 3 or more
tokens the check never fails: that diagnostic is not produced. -/
theorem C16_too_few_arguments (argc : Nat) (argv0 : String) (opts : List (Char × String))
    (rest : List String) (perms : permset) (files : filelist) (o : Oracle) (st_mode0 : Nat) :
    (argc < 4 →
        parse_cmd_line argc argv0 opts rest perms files
          = { ret := 1, perms := perms, files := files,
              log := [Event.err "Error: Insufficient number of arguments\n"] }
        ∧ main argc argv0 opts rest o st_mode0
          = (1, [Event.err "Error: Insufficient number of arguments\n", Event.err usage]))
    ∧ (4 ≤ argc →
        Event.err "Error: Insufficient number of arguments\n"
          ∉ (parse_cmd_line argc argv0 opts rest perms files).log) := by
  constructor
  · intro hlt
    have hp : ∀ perms files, parse_cmd_line argc argv0 opts rest perms files
        = { ret := 1, perms := perms, files := files,
            log := [Event.err "Error: Insufficient number of arguments\n"] } := by
      intro perms files
      unfold parse_cmd_line
      rw [if_pos hlt]
    refine ⟨hp perms files, ?_⟩
    simp only [main, hp]
    rfl
  · intro hge
    have hsw := parse_switches_log_ne argv0 opts perms
    rcases hp : parse_switches argv0 opts perms with ⟨r, perms1, log1⟩
    rw [hp] at hsw
    simp only at hsw
    cases r with
    | none =>
      rw [parse_cmd_line_of_switches argc argv0 opts rest perms files perms1 log1 hge hp]
      simp only [List.mem_append, not_or]
      exact ⟨hsw, spec_validate_log_ne _ _⟩
    | some v =>
      simp only [parse_cmd_line, if_neg (Nat.not_lt.2 hge), hp]
      exact hsw

theorem C16_too_few_arguments_witness :
    (3 < 4)
    ∧ parse_cmd_line 3 "mychmod" [('u', "r")] [] { adds := 0, subs := 0 }
        { list_capacity := 0, filenames := [] }
      = { ret := 1, perms := { adds := 0, subs := 0 },
          files := { list_capacity := 0, filenames := [] },
          log := [Event.err "Error: Insufficient number of arguments\n"] }
    ∧ (4 ≤ 4)
    ∧ Event.err "Error: Insufficient number of arguments\n"
        ∉ (parse_cmd_line 4 "mychmod" [('u', "r")] ["f"] { adds := 0, subs := 0 }
            { list_capacity := 0, filenames := [] }).log :=
  ⟨by decide,
    ((C16_too_few_arguments 3 "mychmod" [('u', "r")] [] { adds := 0, subs := 0 }
      { list_capacity := 0, filenames := [] } sample_oracle 0).1 (by decide)).1,
    by decide,
    (C16_too_few_arguments 4 "mychmod" [('u', "r")] ["f"] { adds := 0, subs := 0 }
      { list_capacity := 0, filenames := [] } sample_oracle 0).2 (by decide)⟩

/-! ## Classification of `chmod` failures -/

theorem apply_new_mode_stat_calls (o : Oracle) (perms : permset) (filei : Nat) (path : String)
    (s : ApplyState) :
    stat_calls (apply_new_mode o perms filei path s).log = stat_calls s.log := by
  obtain ⟨tail, h, ht⟩ := apply_new_mode_log o perms filei path s
  have htail : stat_calls tail = [] := by
    unfold stat_calls
    rw [List.filterMap_eq_nil_iff]
    intro e he
    obtain ⟨msg, rfl⟩ := ht e he
    rfl
  rw [h, stat_calls_append, show Event.chmod path (new_mode s.st_mode perms) :: tail
    = [Event.chmod path (new_mode s.st_mode perms)] ++ tail from rfl, stat_calls_append, htail]
  simp [stat_calls]

/-- Every iteration issues exactly one `stat`, whatever the oracle answers. -/
theorem process_file_stat_calls (o : Oracle) (perms : permset) (filei : Nat) (path : String)
    (s : ApplyState) :
    stat_calls (process_file o perms filei path s).log = stat_calls s.log ++ [path] := by
  simp only [process_file]
  cases o.stat filei path with
  | ok m =>
    simp only
    rw [apply_new_mode_stat_calls]
    simp [stat_calls, List.filterMap_append]
  | fail errno =>
    simp only
    split_ifs
    · simp [stat_calls, List.filterMap_append]
    · simp [stat_calls, List.filterMap_append]
    · rw [apply_new_mode_stat_calls]
      simp [stat_calls, List.filterMap_append]

/-- The loop reaches every file, in order, whatever failed before. -/
theorem change_permissions_loop_stat_calls (o : Oracle) (perms : permset)
    (names : List String) :
    ∀ (k : Nat) (s : ApplyState),
      stat_calls (change_permissions_loop o perms names k s).log = stat_calls s.log ++ names := by
  induction names with
  | nil => intro k s; simp [change_permissions_loop]
  | cons p more ih =>
    intro k s
    simp only [change_permissions_loop]
    rw [ih, process_file_stat_calls]
    simp

/-- C17 (amended): a `chmod` failure is put into the same categories as a
`stat` failure, with the same result codes and one diagnostic each, every call
having its own permission error.  After a successful `stat`, a `chmod` failing
with `EPERM` sets the result code to 2 and prints `Insufficient privileges to
change <path>`, as a `stat` failing with `EACCES` sets it to 2 and prints
`Access denied to <path>`; a `chmod` or a `stat` failing with `ENOENT` sets it
to 4 and prints `<path> does not exist`.  After a `chmod` failure, whatever the
error, the loop goes on with the next file, and every file of the list is
reached, in order. -/
theorem C17_chmod_classification (o : Oracle) (perms : permset) (filei : Nat) (path : String)
    (s : ApplyState) :
    (∀ m, o.stat filei path = StatResult.ok m →
        o.chmod filei path (new_mode m perms) = ChmodResult.fail EPERM →
        process_file o perms filei path s
          = { ret := 2, st_mode := m,
              log := s.log ++ [Event.stat path, Event.chmod path (new_mode m perms),
                Event.err ("Error: Insufficient privileges to change " ++ path ++ "\n")] })
    ∧ (∀ m, o.stat filei path = StatResult.ok m →
        o.chmod filei path (new_mode m perms) = ChmodResult.fail ENOENT →
        process_file o perms filei path s
          = { ret := 4, st_mode := m,
              log := s.log ++ [Event.stat path, Event.chmod path (new_mode m perms),
                Event.err ("Error: " ++ path ++ " does not exist\n")] })
    ∧ (o.stat filei path = StatResult.fail EACCES →
        process_file o perms filei path s
          = { ret := 2, st_mode := s.st_mode,
              log := s.log ++ [Event.stat path,
                Event.err ("Error: Access denied to " ++ path ++ "\n")] })
    ∧ (o.stat filei path = StatResult.fail ENOENT →
        process_file o perms filei path s
          = { ret := 4, st_mode := s.st_mode,
              log := s.log ++ [Event.stat path,
                Event.err ("Error: " ++ path ++ " does not exist\n")] })
    ∧ (∀ (m errno : Nat) (more : List String), o.stat filei path = StatResult.ok m →
        o.chmod filei path (new_mode m perms) = ChmodResult.fail errno →
        stat_calls (change_permissions_loop o perms (path :: more) filei s).log
          = stat_calls s.log ++ path :: more)
    ∧ (∀ (files : filelist) (st_mode0 : Nat),
        stat_calls (change_permissions o files perms st_mode0).log = files.filenames) := by
  refine ⟨?_, ?_, ?_, ?_, ?_, ?_⟩
  · intro m hs hc
    simp [process_file, apply_new_mode, hs, hc]
  · intro m hs hc
    have hne : ENOENT ≠ EPERM := by decide
    simp [process_file, apply_new_mode, hs, hc, hne]
  · intro hs
    simp [process_file, hs]
  · intro hs
    have hne : ENOENT ≠ EACCES := by decide
    simp [process_file, hs, hne]
  · intro m errno more _ _
    exact change_permissions_loop_stat_calls o perms (path :: more) filei s
  · intro files st_mode0
    rw [change_permissions, change_permissions_loop_stat_calls]
    rfl

theorem C17_chmod_classification_witness :
    notowner_oracle.stat 0 "f" = StatResult.ok 0o100644
    ∧ notowner_oracle.chmod 0 "f" (new_mode 0o100644 { adds := 0o700, subs := 0 })
        = ChmodResult.fail EPERM
    ∧ process_file notowner_oracle { adds := 0o700, subs := 0 } 0 "f"
        { ret := 0, st_mode := 0, log := [] }
        = { ret := 2, st_mode := 0o100644,
            log := [Event.stat "f", Event.chmod "f" 0o100744,
              Event.err "Error: Insufficient privileges to change f\n"] }
    ∧ sample_oracle.stat 1 "denied" = StatResult.fail EACCES
    ∧ process_file sample_oracle { adds := 0o700, subs := 0 } 1 "denied"
        { ret := 0, st_mode := 0, log := [] }
        = { ret := 2, st_mode := 0,
            log := [Event.stat "denied", Event.err "Error: Access denied to denied\n"] } := by
  have h1 := (C17_chmod_classification notowner_oracle { adds := 0o700, subs := 0 } 0 "f"
    { ret := 0, st_mode := 0, log := [] }).1 0o100644 rfl rfl
  have h2 := (C17_chmod_classification sample_oracle { adds := 0o700, subs := 0 } 1 "denied"
    { ret := 0, st_mode := 0, log := [] }).2.2.1 (by decide)
  exact ⟨rfl, rfl, h1.trans (by decide), by decide, h2.trans (by decide)⟩

/-- C17 as stated fails at `errno = EACCES`.  The permission error the `stat`
switch classifies is `EACCES` and the one the `chmod` switch classifies is
`EPERM`: a `stat` failing with `EACCES` gives result code 2 and a `chmod`
failing with `EPERM` gives 2, but a `chmod` failing with `EACCES` matches
neither case of its switch and the result code is 0, not 2. -/
theorem C17_counterexample :
    sample_oracle.stat 0 "denied" = StatResult.fail EACCES
    ∧ (change_permissions sample_oracle { list_capacity := 100, filenames := ["denied"] }
        { adds := 0o700, subs := 0 } 0).ret = 2
    ∧ notowner_oracle.chmod 0 "f" 0o100744 = ChmodResult.fail EPERM
    ∧ (change_permissions notowner_oracle { list_capacity := 100, filenames := ["f"] }
        { adds := 0o700, subs := 0 } 0).ret = 2
    ∧ chmod_eacces_oracle.stat 0 "f" = StatResult.ok 0o100644
    ∧ chmod_eacces_oracle.chmod 0 "f" 0o100744 = ChmodResult.fail EACCES
    ∧ (change_permissions chmod_eacces_oracle { list_capacity := 100, filenames := ["f"] }
        { adds := 0o700, subs := 0 } 0).ret = 0
    ∧ diagnostics (change_permissions chmod_eacces_oracle
        { list_capacity := 100, filenames := ["f"] } { adds := 0o700, subs := 0 } 0).log
        = ["Error: Unexpected error while trying to change f - Permission denied\n"] :=
  ⟨by decide, by decide, rfl, by decide, rfl, rfl, by decide, by decide⟩

/-! ## Independence of the files -/

/-- C18 does not hold of the code: in the runs over `[a, big.iso]` and
`[b, big.iso]` with the same change-set, `big.iso` has the same `stat` result
(failure with `EOVERFLOW`) and the same `chmod` result (success), yet the mode
given to its `chmod` differs, 0100744 after `a` and 0100700 after `b`: the
`default` case of the `stat` switch falls through, and the mode is computed
from the `statbuf` left by the file before. -/
theorem C18_mode_depends_on_previous_file :
    overflow_oracle.stat 1 "big.iso" = StatResult.fail EOVERFLOW
    ∧ (∀ m, overflow_oracle.chmod 1 "big.iso" m = ChmodResult.ok)
    ∧ chmod_calls (change_permissions overflow_oracle
          { list_capacity := 100, filenames := ["a", "big.iso"] }
          { adds := 0o700, subs := 0o020 } 0).log
        = [("a", 0o100744), ("big.iso", 0o100744)]
    ∧ chmod_calls (change_permissions overflow_oracle
          { list_capacity := 100, filenames := ["b", "big.iso"] }
          { adds := 0o700, subs := 0o020 } 0).log
        = [("b", 0o100700), ("big.iso", 0o100700)] :=
  ⟨by decide, fun _ => rfl, by decide, by decide⟩

/-! ## Bits above the permission bits -/

theorem and_bnot32_0777_eq_zero (x : Nat) (hx : x < 2 ^ 9) : x &&& bnot32 0o777 = 0 := by
  apply Nat.zero_of_testBit_eq_false
  intro i
  rw [Nat.testBit_and, testBit_bnot32]
  by_cases hi : i < 9
  · have h777 : Nat.testBit 0o777 i = true := by
      have : (0o777 : Nat) = 2 ^ 9 - 1 := by decide
      rw [this, Nat.testBit_two_pow_sub_one]
      simpa using hi
    simp [h777]
  · rw [testBit_of_lt_two_pow hx (Nat.le_of_not_lt hi)]
    rfl

theorem add_change_to_set_foldl_lt (calls : List (String × Nat)) :
    ∀ set : Nat, set < 2 ^ 9 →
      calls.foldl (fun acc c => (add_change_to_set acc c.1 c.2).set) set < 2 ^ 9 := by
  induction calls with
  | nil => intro set h; exact h
  | cons c more ih =>
    intro set h
    simp only [List.foldl_cons]
    exact ih _ (add_change_to_set_lt set c.1 c.2 h)

theorem testBit_new_mode_high (m : Nat) (perms : permset) (i : Nat) (hi : 9 ≤ i)
    (ha : perms.adds < 2 ^ 9) (hs : perms.subs < 2 ^ 9) :
    (new_mode m perms).testBit i = m.testBit i := by
  rw [testBit_new_mode, testBit_of_lt_two_pow ha hi, testBit_of_lt_two_pow hs hi]
  simp

/-- C19: starting from the zeroed change-set, after any sequence of
`add_change_to_set` calls, successful or failed, the mask lies within the low
9 bits, and so do both masks after the option loop of `parse_cmd_line`:
`adds & ~0777 = 0` and `subs & ~0777 = 0`.  Hence for every file whose `stat`
succeeds with mode `m`, the mode given to `chmod` agrees with `m` on every bit
above the low 9: file type, setuid, setgid and sticky bits are neither added
nor removed. -/
theorem C19_high_bits_untouched (argv0 : String) (opts : List (Char × String)) :
    (∀ calls : List (String × Nat),
        calls.foldl (fun acc c => (add_change_to_set acc c.1 c.2).set) 0 < 2 ^ 9)
    ∧ (parse_switches argv0 opts { adds := 0, subs := 0 }).2.1.adds < 2 ^ 9
    ∧ (parse_switches argv0 opts { adds := 0, subs := 0 }).2.1.subs < 2 ^ 9
    ∧ (parse_switches argv0 opts { adds := 0, subs := 0 }).2.1.adds &&& bnot32 0o777 = 0
    ∧ (parse_switches argv0 opts { adds := 0, subs := 0 }).2.1.subs &&& bnot32 0o777 = 0
    ∧ (∀ m i, 9 ≤ i →
        (new_mode m (parse_switches argv0 opts { adds := 0, subs := 0 }).2.1).testBit i
          = m.testBit i)
    ∧ (∀ m, new_mode m (parse_switches argv0 opts { adds := 0, subs := 0 }).2.1 >>> 9 = m >>> 9)
    ∧ (∀ (o : Oracle) (files : filelist) (st_mode0 i : Nat) (hi : i < files.filenames.length)
        (m : Nat), o.stat i (files.filenames.get ⟨i, hi⟩) = StatResult.ok m →
        ∃ mode, Event.chmod (files.filenames.get ⟨i, hi⟩) mode
            ∈ (change_permissions o files
                (parse_switches argv0 opts { adds := 0, subs := 0 }).2.1 st_mode0).log
          ∧ ∀ j, 9 ≤ j → mode.testBit j = m.testBit j) := by
  obtain ⟨ha, hs⟩ := parse_switches_lt argv0 opts { adds := 0, subs := 0 } (by decide) (by decide)
  refine ⟨fun calls => add_change_to_set_foldl_lt calls 0 (by decide), ha, hs,
    and_bnot32_0777_eq_zero _ ha, and_bnot32_0777_eq_zero _ hs, ?_, ?_, ?_⟩
  · intro m i hi
    exact testBit_new_mode_high m _ i hi ha hs
  · intro m
    apply Nat.eq_of_testBit_eq
    intro i
    rw [Nat.testBit_shiftRight, Nat.testBit_shiftRight]
    exact testBit_new_mode_high m _ (9 + i) (Nat.le_add_right 9 i) ha hs
  · intro o files st_mode0 i hi m hstat
    refine ⟨new_mode m (parse_switches argv0 opts { adds := 0, subs := 0 }).2.1, ?_, ?_⟩
    · have := change_permissions_loop_chmod_mem o
        (parse_switches argv0 opts { adds := 0, subs := 0 }).2.1 files.filenames 0
        { ret := 0, st_mode := st_mode0, log := [] } i hi m (by simpa using hstat)
      simpa [change_permissions] using this
    · intro j hj
      exact testBit_new_mode_high m _ j hj ha hs

theorem C19_high_bits_untouched_witness :
    (9 ≤ 11)
    ∧ (new_mode 0o104644
        (parse_switches "mychmod" [('u', "x"), ('O', "r")] { adds := 0, subs := 0 }).2.1).testBit 11
        = Nat.testBit 0o104644 11
    ∧ new_mode 0o104644
        (parse_switches "mychmod" [('u', "x"), ('O', "r")] { adds := 0, subs := 0 }).2.1
        = 0o104740 :=
  ⟨by decide,
    (C19_high_bits_untouched "mychmod" [('u', "x"), ('O', "r")]).2.2.2.2.2.1 0o104644 11
      (by decide),
    by decide⟩

end Mychmod
